import Mathlib

/-!
Verification development for the blog repository's routing framework:
the runtime app router (package web, app_router), the dispatch engine
(framework/engine), the framework contracts (framework package, both the
live-capable variant in contracts.go and the earlier NotFoundContext
variant), the HTTP server adapter (framework/httpserver) and the route
code generator (framework/approutegen).

Go strings are modelled as Lean String values; machine-level details the
cited code does not rely on (UTF-8 byte iteration) do not arise because
all operations used are segment- and character-based.
-/

namespace GoStr

/-- Characters for which Go's unicode.IsSpace returns true (the White_Space
property): U+0009..U+000D, U+0020, U+0085, U+00A0, U+1680, U+2000..U+200A,
U+2028, U+2029, U+202F, U+205F, U+3000. -/
def goSpaceChars : List Char :=
  [Char.ofNat 0x09, Char.ofNat 0x0A, Char.ofNat 0x0B, Char.ofNat 0x0C,
   Char.ofNat 0x0D, ' ', Char.ofNat 0x85, Char.ofNat 0xA0, Char.ofNat 0x1680,
   Char.ofNat 0x2000, Char.ofNat 0x2001, Char.ofNat 0x2002, Char.ofNat 0x2003,
   Char.ofNat 0x2004, Char.ofNat 0x2005, Char.ofNat 0x2006, Char.ofNat 0x2007,
   Char.ofNat 0x2008, Char.ofNat 0x2009, Char.ofNat 0x200A, Char.ofNat 0x2028,
   Char.ofNat 0x2029, Char.ofNat 0x202F, Char.ofNat 0x205F, Char.ofNat 0x3000]

/-- Go unicode.IsSpace, as used by strings.TrimSpace. -/
def goIsSpace (c : Char) : Bool := goSpaceChars.contains c

/-- Remove trailing characters satisfying goIsSpace from a character list. -/
def trimTrailing (l : List Char) : List Char :=
  (l.reverse.dropWhile goIsSpace).reverse

/-- Go strings.TrimSpace on a character list: drop leading and trailing
white space. -/
def goTrimL (l : List Char) : List Char :=
  trimTrailing (l.dropWhile goIsSpace)

/-- Go strings.TrimSpace. -/
def goTrimSpace (s : String) : String := ⟨goTrimL s.data⟩

/-- Go strings.Split(s, "/") on a character list: the slash-separated
chunks, never empty as a list (Split of the empty string is one empty
chunk). -/
def splitOnSlash : List Char → List (List Char)
  | [] => [[]]
  | c :: rest =>
    if c = '/' then [] :: splitOnSlash rest
    else
      match splitOnSlash rest with
      | [] => [[c]]
      | s :: ss => (c :: s) :: ss

/-- Inverse of splitOnSlash: join chunks with slashes. -/
def joinSlash : List (List Char) → List Char
  | [] => []
  | [s] => s
  | s :: rest => s ++ '/' :: joinSlash rest

/-- One step of Go path.Clean element processing for a rooted path:
empty and "." elements are dropped, ".." pops the previous element
(or is dropped at the root), anything else is kept. -/
def cleanStepRooted (acc : List (List Char)) (seg : List Char) : List (List Char) :=
  if seg = [] ∨ seg = ['.'] then acc
  else if seg = ['.', '.'] then acc.dropLast
  else acc ++ [seg]

/-- Element list of Go path.Clean for a rooted path: process the
slash-separated elements left to right with cleanStepRooted. -/
def cleanSegsRooted (parts : List (List Char)) : List (List Char) :=
  parts.foldl cleanStepRooted []

/-- One step of Go path.Clean element processing for an unrooted path:
like the rooted step, except that ".." elements accumulate at the front
when there is nothing left to pop. -/
def cleanStepUnrooted (acc : List (List Char)) (seg : List Char) : List (List Char) :=
  if seg = [] ∨ seg = ['.'] then acc
  else if seg = ['.', '.'] then
    if acc ≠ [] ∧ acc.getLast? ≠ some ['.', '.'] then acc.dropLast
    else acc ++ [seg]
  else acc ++ [seg]

/-- Go path.Clean. For a rooted path the result is "/" followed by the
processed elements joined with slashes (just "/" when none remain); for
an unrooted path it is the joined elements, or "." when none remain. -/
def goPathClean (s : String) : String :=
  match s.data with
  | [] => "."
  | c :: rest =>
    if c = '/' then
      ⟨'/' :: joinSlash (cleanSegsRooted (splitOnSlash rest))⟩
    else
      let out := splitOnSlash (c :: rest) |>.foldl cleanStepUnrooted []
      if out = [] then "." else ⟨joinSlash out⟩

/-- Go strings.HasPrefix. -/
def strStartsWith (s t : String) : Bool := s.data.take t.data.length = t.data

/-- Go strings.HasSuffix. -/
def strEndsWith (s t : String) : Bool :=
  t.data.length ≤ s.data.length ∧
    s.data.drop (s.data.length - t.data.length) = t.data

/-- Go strings.TrimSuffix. -/
def goTrimSuffix (s t : String) : String :=
  if strEndsWith s t then ⟨s.data.take (s.data.length - t.data.length)⟩ else s

/-- Go strings.TrimPrefix with a string argument. -/
def goTrimPrefixStr (s t : String) : String :=
  if strStartsWith s t then ⟨s.data.drop t.data.length⟩ else s

/-- Go path.Base: strip trailing slashes, then keep everything after the
last slash; empty input gives ".", all-slash input gives "/". -/
def goPathBase (s : String) : String :=
  match s.data with
  | [] => "."
  | l =>
    let stripped := (l.reverse.dropWhile (· = '/')).reverse
    if stripped = [] then "/"
    else ⟨(stripped.reverse.takeWhile (· ≠ '/')).reverse⟩

/-- Go strconv quoting as used by fmt's percent-q verb, for strings with
no characters needing escapes (all route ids, patterns and messages in
this repository): wrap in double quotes. -/
def goQuote (s : String) : String := "\"" ++ s ++ "\""

/-- ASCII letter test, matching the a-z A-Z ranges of the route-name
regular expression. -/
def isAsciiAlpha (c : Char) : Bool :=
  ('a' ≤ c ∧ c ≤ 'z') ∨ ('A' ≤ c ∧ c ≤ 'Z')

/-- ASCII digit test. -/
def isAsciiDigit (c : Char) : Bool := '0' ≤ c ∧ c ≤ '9'

/-- The dynamic segment name pattern of both parsers, the anchored
regular expression listing a letter then letters, digits or
underscores. -/
def dynNameOK (s : String) : Bool :=
  match s.data with
  | [] => false
  | c :: rest => isAsciiAlpha c && rest.all (fun d => isAsciiAlpha d || isAsciiDigit d || d = '_')

/-- Does the string contain a square bracket (Go strings.ContainsAny with
the two bracket characters)? -/
def containsBracket (s : String) : Bool := s.data.any (fun c => c = '[' ∨ c = ']')

/-- Go string comparison on character lists: lexicographic by code
point, which on UTF-8 encoded strings coincides with Go's bytewise
string order. -/
def goStrLtL : List Char → List Char → Bool
  | _, [] => false
  | [], _ :: _ => true
  | a :: as, b :: bs =>
    if a.toNat < b.toNat then true
    else if b.toNat < a.toNat then false
    else goStrLtL as bs

/-- Go's s < t on strings. -/
def strLt (s t : String) : Prop := goStrLtL s.data t.data = true

instance : DecidableRel strLt := fun s t => by
  unfold strLt; infer_instance

/-- The non-strict order induced by Go string comparison, as a sort
comparator admits it: s may be placed before t. -/
def strLe (s t : String) : Prop := ¬ strLt t s

instance : DecidableRel strLe := fun s t => by
  unfold strLe; infer_instance

theorem goStrLtL_asymm : ∀ (a b : List Char),
    goStrLtL a b = true → goStrLtL b a = true → False := by
  intro a
  induction a with
  | nil => intro b h₁ h₂; cases b <;> simp [goStrLtL] at h₁ h₂
  | cons c cs ih =>
    intro b h₁ h₂
    cases b with
    | nil => simp [goStrLtL] at h₁
    | cons d ds =>
      simp only [goStrLtL] at h₁ h₂
      by_cases hcd : c.toNat < d.toNat
      · have hdc : ¬ d.toNat < c.toNat := by omega
        simp [hcd, hdc] at h₂
      · by_cases hdc : d.toNat < c.toNat
        · simp [hcd, hdc] at h₁
        · simp [hcd, hdc] at h₁ h₂
          exact ih ds h₁ h₂

theorem goStrLtL_trans : ∀ (a b c : List Char),
    goStrLtL a b = true → goStrLtL b c = true → goStrLtL a c = true := by
  intro a
  induction a with
  | nil =>
    intro b c h₁ h₂
    cases b with
    | nil => exact h₂
    | cons d ds =>
      cases c with
      | nil => simp [goStrLtL] at h₂
      | cons e es => simp [goStrLtL]
  | cons x xs ih =>
    intro b c h₁ h₂
    cases b with
    | nil => simp [goStrLtL] at h₁
    | cons y ys =>
      cases c with
      | nil => simp [goStrLtL] at h₂
      | cons z zs =>
        simp only [goStrLtL] at h₁ h₂ ⊢
        by_cases hxy : x.toNat < y.toNat
        · by_cases hyz : y.toNat < z.toNat
          · have : x.toNat < z.toNat := by omega
            simp [this]
          · by_cases hzy : z.toNat < y.toNat
            · simp [hyz, hzy] at h₂
            · have hxz : x.toNat < z.toNat := by omega
              simp [hxz]
        · by_cases hyx : y.toNat < x.toNat
          · simp [hxy, hyx] at h₁
          · by_cases hyz : y.toNat < z.toNat
            · have hxz : x.toNat < z.toNat := by omega
              simp [hxz]
            · by_cases hzy : z.toNat < y.toNat
              · simp [hyz, hzy] at h₂
              · have hxz : ¬ x.toNat < z.toNat := by omega
                have hzx : ¬ z.toNat < x.toNat := by omega
                simp only [hxy, hyx, hyz, hzy, hxz, hzx, if_false, if_neg] at h₁ h₂ ⊢
                exact ih ys zs h₁ h₂

theorem charEq_of_toNat_eq {a b : Char} (h : a.toNat = b.toNat) : a = b :=
  Char.ext (UInt32.ext h)

theorem goStrLtL_eq_of_not : ∀ (a b : List Char),
    goStrLtL a b = false → goStrLtL b a = false → a = b := by
  intro a
  induction a with
  | nil => intro b h₁ _; cases b with
    | nil => rfl
    | cons d ds => simp [goStrLtL] at h₁
  | cons c cs ih =>
    intro b h₁ h₂
    cases b with
    | nil => simp [goStrLtL] at h₂
    | cons d ds =>
      simp only [goStrLtL] at h₁ h₂
      by_cases hcd : c.toNat < d.toNat
      · simp [hcd] at h₁
      · by_cases hdc : d.toNat < c.toNat
        · simp [hcd, hdc] at h₁
          simp [hdc] at h₂
        · simp [hcd, hdc] at h₁ h₂
          have hch : c = d := charEq_of_toNat_eq (by omega)
          rw [hch, ih ds h₁ h₂]

theorem strLt_asymm {a b : String} (h₁ : strLt a b) (h₂ : strLt b a) : False :=
  goStrLtL_asymm a.data b.data h₁ h₂

theorem strLt_trans {a b c : String} (h₁ : strLt a b) (h₂ : strLt b c) : strLt a c :=
  goStrLtL_trans a.data b.data c.data h₁ h₂

theorem strEq_of_not_lt {a b : String} (h₁ : ¬ strLt a b) (h₂ : ¬ strLt b a) : a = b := by
  have hd : a.data = b.data :=
    goStrLtL_eq_of_not a.data b.data (by simpa [strLt] using h₁) (by simpa [strLt] using h₂)
  cases a
  cases b
  exact congrArg String.mk hd

theorem strLe_trans {a b c : String} (h₁ : strLe a b) (h₂ : strLe b c) : strLe a c := by
  intro hlt
  by_cases hba : strLt b a
  · exact h₁ hba
  · by_cases hab : strLt a b
    · exact h₂ (strLt_trans hlt hab)
    · rw [strEq_of_not_lt hab hba] at hlt
      exact h₂ hlt

instance : IsTotal String strLe where
  total a b := by
    by_cases h : strLt b a
    · exact Or.inr (fun h' => strLt_asymm h h')
    · exact Or.inl h

instance : IsTrans String strLe where
  trans _ _ _ := strLe_trans

instance : IsAntisymm String strLe where
  antisymm _ _ h₁ h₂ := strEq_of_not_lt h₂ h₁

end GoStr

namespace Router

open GoStr

/-- A path component of a compiled route: a static literal or a named
dynamic parameter (app_router pathSegment). -/
structure pathSegment where
  name : String
  isParam : Bool
deriving DecidableEq, Repr

/-- A discovered route of the runtime router (app_router appRoute). -/
structure appRoute where
  id : String
  segments : List pathSegment
  staticCount : Nat
  patternKey : String
deriving DecidableEq, Repr

/-- A successful Match result (app_router AppRouteMatch); the nil Go map
is modelled as the empty association list. -/
structure AppRouteMatch where
  ID : String
  Params : List (String × String)
deriving DecidableEq, Repr

/-- Association-list lookup, modelling a Go map read. -/
def assocFind {α β : Type} [DecidableEq α] : List (α × β) → α → Option β
  | [], _ => none
  | (a, b) :: rest, k => if a = k then some b else assocFind rest k

/-- Association-list write, modelling a Go map assignment (later writes
to the same key overwrite). -/
def mapAssign (m : List (String × String)) (k v : String) : List (String × String) :=
  match m with
  | [] => [(k, v)]
  | (a, b) :: rest => if a = k then (a, v) :: rest else (a, b) :: mapAssign rest k v

/-- AppRouteMatch.Param: look a captured parameter up by name. -/
def AppRouteMatch.Param (m : AppRouteMatch) (name : String) : Option String :=
  assocFind m.Params name

/-- app_router parseWildcardSegment: classify one route-directory segment.
Returns (name, isParam, normalizedIDPart); the legacy underscore form is
accepted as a wildcard, bracket-wrapped segments are wildcards when the
inner name matches the dynamic-name pattern, stray brackets are errors,
all other segments are static. -/
def parseWildcardSegment (segment : String) : Except String (String × Bool × String) :=
  if strStartsWith segment "_" then
    let name := goTrimSpace ⟨segment.data.drop 1⟩
    if ¬ dynNameOK name then .error ("invalid wildcard name " ++ goQuote name)
    else .ok (name, true, "[" ++ name ++ "]")
  else if strStartsWith segment "[" ∨ strEndsWith segment "]" then
    if ¬ (strStartsWith segment "[" ∧ strEndsWith segment "]") then
      .error ("invalid wildcard segment " ++ goQuote segment)
    else
      let name := goTrimSpace ⟨(segment.data.drop 1).dropLast⟩
      if ¬ dynNameOK name then .error ("invalid wildcard name " ++ goQuote name)
      else .ok (name, true, "[" ++ name ++ "]")
  else if containsBracket segment then
    .error ("invalid static segment " ++ goQuote segment)
  else if goTrimSpace segment = "_" then
    .error ("invalid wildcard segment " ++ goQuote segment)
  else .ok ("", false, "")

/-- The per-segment loop of app_router parseAppRoute: builds the segment
list, the pattern-key parts (":" for params), the normalized id parts and
the static-segment count. -/
def parseSegmentsLoop (relPath : String) :
    List String → Except String (List pathSegment × List String × List String × Nat)
  | [] => .ok ([], [], [], 0)
  | part :: rest =>
    if goTrimSpace part = "" then
      .error ("route file " ++ goQuote relPath ++ " has empty path segment")
    else
      match parseWildcardSegment part with
      | .error e => .error ("route file " ++ goQuote relPath ++ ": " ++ e)
      | .ok (name, isParam, normPart) =>
        (parseSegmentsLoop relPath rest).map (fun out =>
          let (segs, pats, norms, sc) := out
          if isParam then
            (⟨name, true⟩ :: segs, ":" :: pats, normPart :: norms, sc)
          else
            (⟨part, false⟩ :: segs, part :: pats, part :: norms, sc + 1))

/-- app_router parseAppRoute: clean the relative template path, strip the
page.templ suffix, split into directory segments and classify each. -/
def parseAppRoute (relPath : String) : Except String appRoute :=
  let cleaned := goPathClean (goTrimSpace relPath)
  if cleaned = "" ∨ cleaned = "." then .error "route path cannot be empty"
  else
    let idResult : Except String String :=
      if cleaned ≠ "page.templ" then
        if ¬ strEndsWith cleaned "/page.templ" then
          .error ("route file " ++ goQuote relPath ++ " must end with " ++
            goQuote "/page.templ")
        else .ok (goTrimSuffix cleaned "/page.templ")
      else .ok ""
    match idResult with
    | .error e => .error e
    | .ok id =>
      let parts : List String :=
        if id = "" then [] else (splitOnSlash id.data).map (fun l => (⟨l⟩ : String))
      match parseSegmentsLoop relPath parts with
      | .error e => .error e
      | .ok (segments, patternParts, normParts, staticCount) =>
        let normalizedID := String.intercalate "/" normParts
        let patternKey :=
          if patternParts = [] then "/" else "/" ++ String.intercalate "/" patternParts
        .ok ⟨normalizedID, segments, staticCount, patternKey⟩

/-- The comparator of the sort.Slice call in NewAppRouter: more static
segments first, then more total segments, then ascending route id. -/
def routeLess (a b : appRoute) : Prop :=
  (a.staticCount ≠ b.staticCount ∧ b.staticCount < a.staticCount) ∨
  (a.staticCount = b.staticCount ∧
    ((a.segments.length ≠ b.segments.length ∧ b.segments.length < a.segments.length) ∨
     (a.segments.length = b.segments.length ∧ strLt a.id b.id)))

instance : DecidableRel routeLess := fun _ _ => by
  unfold routeLess; infer_instance

/-- The non-strict order induced by the sort comparator: a may be placed
before b. -/
def routeLE (a b : appRoute) : Prop := ¬ routeLess b a

instance : DecidableRel routeLE := fun _ _ => by
  unfold routeLE; infer_instance

theorem routeLess_asymm (a b : appRoute) (h₁ : routeLess a b) (h₂ : routeLess b a) :
    False := by
  rcases h₁ with ⟨_, h₁⟩ | ⟨e₁, ⟨_, h₁⟩ | ⟨e₁l, h₁⟩⟩ <;>
    rcases h₂ with ⟨_, h₂⟩ | ⟨e₂, ⟨_, h₂⟩ | ⟨e₂l, h₂⟩⟩ <;>
      first
        | omega
        | exact strLt_asymm h₁ h₂

instance : IsTotal appRoute routeLE where
  total a b := by
    by_cases h : routeLess b a
    · right
      exact fun h' => routeLess_asymm a b h' h
    · left
      exact h

theorem routeLE_iff (a b : appRoute) :
    routeLE a b ↔ (b.staticCount ≤ a.staticCount ∧
      (a.staticCount = b.staticCount →
        (b.segments.length ≤ a.segments.length ∧
          (a.segments.length = b.segments.length → strLe a.id b.id)))) := by
  unfold routeLE routeLess
  constructor
  · intro h
    refine ⟨?_, fun hsc => ⟨?_, fun hln => ?_⟩⟩
    · by_contra hlt
      exact h (Or.inl ⟨by omega, by omega⟩)
    · by_contra hlt
      exact h (Or.inr ⟨hsc.symm, Or.inl ⟨by omega, by omega⟩⟩)
    · intro hlt
      exact h (Or.inr ⟨hsc.symm, Or.inr ⟨hln.symm, hlt⟩⟩)
  · rintro ⟨hsc, hrest⟩ (⟨_, hlt⟩ | ⟨heq, ⟨_, hlt⟩ | ⟨heql, hid⟩⟩)
    · omega
    · rcases hrest heq.symm with ⟨hln, _⟩
      omega
    · rcases hrest heq.symm with ⟨_, hid'⟩
      exact (hid' heql.symm) hid

instance : IsTrans appRoute routeLE where
  trans a b c hab hbc := by
    rw [routeLE_iff] at hab hbc ⊢
    rcases hab with ⟨hsc₁, h₁⟩
    rcases hbc with ⟨hsc₂, h₂⟩
    refine ⟨le_trans hsc₂ hsc₁, fun he => ?_⟩
    have hb : a.staticCount = b.staticCount := by omega
    have hc : b.staticCount = c.staticCount := by omega
    rcases h₁ hb with ⟨hl₁, h₁'⟩
    rcases h₂ hc with ⟨hl₂, h₂'⟩
    refine ⟨le_trans hl₂ hl₁, fun hle => ?_⟩
    have hbl : a.segments.length = b.segments.length := by omega
    have hcl : b.segments.length = c.segments.length := by omega
    exact strLe_trans (h₁' hbl) (h₂' hcl)

/-- The sort.Slice call of NewAppRouter. The comparator is a strict
total order on routes with pairwise distinct pattern keys, so the sorted
result is unique; insertion sort computes it. -/
def sortRoutes (routes : List appRoute) : List appRoute :=
  List.insertionSort routeLE routes

/-- The file-walk loop body of NewAppRouter: skip non page.templ files,
compute the root-relative path, parse the route and reject duplicate
pattern keys. The fs.WalkDir traversal is modelled by the caller passing
the walked file paths in walk (lexical) order; directory entries are
skipped by the source and therefore omitted. -/
def walkLoop (root : String) :
    List String → List appRoute → List (String × String) → Except String (List appRoute)
  | [], routes, _ => .ok routes
  | filePath :: rest, routes, seenPattern =>
    if goPathBase filePath ≠ "page.templ" then walkLoop root rest routes seenPattern
    else
      let relPath := goTrimPrefixStr filePath (root ++ "/")
      if relPath = filePath then
        .error ("compute route path for " ++ goQuote filePath ++ " under root " ++
          goQuote root)
      else
        match parseAppRoute relPath with
        | .error e => .error e
        | .ok route =>
          match assocFind seenPattern route.patternKey with
          | some existing =>
            .error ("route pattern conflict: " ++ goQuote existing ++ " and " ++
              goQuote route.id)
          | none =>
            walkLoop root rest (routes ++ [route])
              (seenPattern ++ [(route.patternKey, route.id)])

/-- app_router NewAppRouter, modelled on the list of file paths the
fs.WalkDir traversal yields (in lexical order): trim and validate the
root, walk the files collecting conflict-checked routes, require at
least one route, and sort by specificity. -/
def newAppRouter (files : List String) (root : String) : Except String (List appRoute) :=
  let root := goTrimSpace root
  if root = "" then .error "app router root cannot be empty"
  else
    match walkLoop root files [] [] with
    | .error e => .error ("walk app directory: " ++ e)
    | .ok routes =>
      if routes = [] then .error "no page.templ routes found"
      else .ok (sortRoutes routes)

/-- The inner position loop of AppRouter.Match: params capture request
segments, static segments must be equal. -/
def matchSegsLoop :
    List pathSegment → List String → List (String × String) → Option (List (String × String))
  | [], _, params => some params
  | seg :: segs, v :: vs, params =>
    if seg.isParam then matchSegsLoop segs vs (mapAssign params seg.name v)
    else if seg.name = v then matchSegsLoop segs vs params
    else none
  | _ :: _, [], _ => none

/-- The per-route body of AppRouter.Match: decline on segment-count
mismatch, else run the position loop. -/
def routeMatches (route : appRoute) (reqSegs : List String) :
    Option (List (String × String)) :=
  if route.segments.length ≠ reqSegs.length then none
  else matchSegsLoop route.segments reqSegs []

/-- app_router splitPathSegments: clean "/" plus the trimmed raw path and
split into slash-separated segments; the cleaned path "/" yields no
segments. The rooted Clean is the element-processing fold
cleanSegsRooted, and trimming the surrounding slashes then splitting
recovers exactly that element list. -/
def splitPathSegments (raw : String) : List String :=
  (cleanSegsRooted (splitOnSlash (goTrimL raw.data))).map (fun l => (⟨l⟩ : String))

/-- AppRouter.Match over the ordered route list: first structurally
matching route wins; an empty capture map is returned as a match with no
parameters. -/
def routerMatch (routes : List appRoute) (requestPath : String) : Option AppRouteMatch :=
  let reqSegs := splitPathSegments requestPath
  go routes reqSegs
where
  go : List appRoute → List String → Option AppRouteMatch
  | [], _ => none
  | route :: rest, reqSegs =>
    match routeMatches route reqSegs with
    | some params => some ⟨route.id, params⟩
    | none => go rest reqSegs

/-- The position loop of matchPathPattern: each pattern segment is
re-classified by parseWildcardSegment at match time; a classification
error makes the whole match fail. -/
def matchPatternLoop :
    List String → List String → List (String × String) → Option (List (String × String))
  | [], _, params => some params
  | p :: ps, v :: vs, params =>
    match parseWildcardSegment p with
    | .error _ => none
    | .ok (name, isParam, _) =>
      if isParam then matchPatternLoop ps vs (mapAssign params name v)
      else if p = v then matchPatternLoop ps vs params
      else none
  | _ :: _, [], _ => none

/-- app_router matchPathPattern: split both pattern and request path into
cleaned segments, require equal counts, then match positionally. -/
def matchPathPattern (pattern requestPath : String) : Option (List (String × String)) :=
  let patternSegments := splitPathSegments pattern
  let requestSegments := splitPathSegments requestPath
  if patternSegments.length ≠ requestSegments.length then none
  else matchPatternLoop patternSegments requestSegments []

end Router

namespace Fw

open GoStr

/-- An incoming HTTP request as the dispatch layer observes it: the URL
path (r.URL.Path). The request value is also passed opaquely to state
parsers and loaders. -/
structure Request where
  path : String
deriving DecidableEq, Repr

/-- framework NotFoundSource page_load constant (part_016). -/
def notFoundSourcePageLoad : String := "page_load"

/-- framework NotFoundSource unmatched_route constant (part_016). -/
def notFoundSourceUnmatchedRoute : String := "unmatched_route"

/-- framework NotFoundContext (part_016): request path, the matched route
pattern (empty when no route matched) and the source tag. -/
structure NotFoundContext where
  RequestPath : String
  MatchedRoutePattern : String
  Source : String
deriving DecidableEq, Repr

/-- framework PageModule (contracts.go): pattern, parameter parser,
loader, renderer and layout chain. Go's (P, bool) parser result is
Option P; error-returning callbacks are Except with the error message. -/
structure PageModule (C P VM T : Type) where
  Pattern : String
  ParseParams : String → Option P
  Load : C → Request → P → Except String VM
  Render : VM → T
  Layouts : List (VM → T → T)

/-- framework LiveModule (contracts.go): pattern, parameter parser, state
parser, live loader, renderer, patch selector and bad-request message. -/
structure LiveModule (C P VM S T : Type) where
  Pattern : String
  ParseParams : String → Option P
  ParseState : Request → Except String S
  Load : C → Request → P → S → Except String VM
  Render : VM → T
  SelectorID : String
  BadRequestMessage : String

/-- The RuntimeContext capabilities a handler consumes (contracts.go):
the application context, the outcomes of the injected render/patch
callbacks, and the not-found classifier. Respond calls are recorded as
events rather than modelled as writer mutation. -/
structure Runtime (C T : Type) where
  appContext : C
  renderPageResult : Request → T → Except String Unit
  patchLiveResult : Request → String → T → Except String Unit
  isNotFound : String → Bool

/-- Observable actions of one handler invocation, in order: loader and
parser calls, render/patch calls with the exact component, and the
respond-x calls with their payloads. -/
inductive Ev (T : Type) where
  | pageLoad
  | stateParse
  | liveLoad
  | renderPage (component : T)
  | patchLive (selectorID : String) (component : T)
  | respondNotFound
  | respondBadRequest (message : String)
  | respondServerError (message : String)
deriving DecidableEq

/-- contracts.go applyLayouts: the downward loop wraps the child with
layouts from the last index to index 0, so the head of the list ends up
outermost. -/
def applyLayouts {VM T : Type} : List (VM → T → T) → VM → T → T
  | [], _, child => child
  | l :: rest, view, child => l view (applyLayouts rest view child)

/-- contracts.go handleLoadError: not-found-classified errors respond
not-found (with no context in this variant), everything else responds
server-error with the wrapped message. -/
def handleLoadError {C T : Type} (rt : Runtime C T) (err : String)
    (routePattern : String) : List (Ev T) :=
  if rt.isNotFound err then [.respondNotFound]
  else [.respondServerError ("load route " ++ goQuote routePattern ++ ": " ++ err)]

/-- contracts.go servePageModule: decline when the parameter parser does
not match; otherwise load, classify a load error, or render through the
layout chain; the boolean is the handler's served result. -/
def servePageModule {C P VM T : Type} (rt : Runtime C T) (r : Request)
    (m : PageModule C P VM T) : Bool × List (Ev T) :=
  match m.ParseParams r.path with
  | none => (false, [])
  | some params =>
    match m.Load rt.appContext r params with
    | .error err => (true, .pageLoad :: handleLoadError rt err m.Pattern)
    | .ok view =>
      let component := applyLayouts m.Layouts view (m.Render view)
      match rt.renderPageResult r component with
      | .ok _ => (true, [.pageLoad, .renderPage component])
      | .error err => (true, [.pageLoad, .renderPage component,
          .respondServerError ("render route " ++ goQuote m.Pattern ++ ": " ++ err)])

/-- The message a live state-parse failure responds with (contracts.go
serveLiveModule): the trimmed configured message, or the fixed fallback
when blank. -/
def effectiveBadRequestMessage (raw : String) : String :=
  let message := goTrimSpace raw
  if message = "" then "invalid request payload" else message

/-- contracts.go serveLiveModule: decline when the parameter parser does
not match; a state-parse error responds bad-request and stops; otherwise
load, classify a load error, or patch the rendered fragment (with no
layout wrapping). -/
def serveLiveModule {C P VM S T : Type} (rt : Runtime C T) (r : Request)
    (m : LiveModule C P VM S T) : Bool × List (Ev T) :=
  match m.ParseParams r.path with
  | none => (false, [])
  | some params =>
    match m.ParseState r with
    | .error _ =>
      (true, [.stateParse, .respondBadRequest (effectiveBadRequestMessage m.BadRequestMessage)])
    | .ok state =>
      match m.Load rt.appContext r params state with
      | .error err => (true, .stateParse :: .liveLoad :: handleLoadError rt err m.Pattern)
      | .ok view =>
        match rt.patchLiveResult r m.SelectorID (m.Render view) with
        | .ok _ => (true, [.stateParse, .liveLoad, .patchLive m.SelectorID (m.Render view)])
        | .error err => (true, [.stateParse, .liveLoad, .patchLive m.SelectorID (m.Render view),
            .respondServerError ("patch route " ++ goQuote m.Pattern ++ ": " ++ err)])

/-- framework RouteHandler (contracts.go): the page-only and
page-and-live variants, each closing over its modules with their own
parameter, view-model and state types. -/
inductive RouteHandler (C T : Type) : Type 1 where
  | pageOnly {P VM : Type} (page : PageModule C P VM T) : RouteHandler C T
  | pageAndLive {P VM S : Type} (page : PageModule C P VM T)
      (live : LiveModule C P VM S T) : RouteHandler C T

/-- TryServePage of both handler variants: serve the page module. -/
def RouteHandler.tryServePage {C T : Type} :
    RouteHandler C T → Runtime C T → Request → Bool × List (Ev T)
  | .pageOnly page, rt, r => servePageModule rt r page
  | .pageAndLive page _, rt, r => servePageModule rt r page

/-- TryServeLive: the page-only variant always declines; the
page-and-live variant serves its live module. -/
def RouteHandler.tryServeLive {C T : Type} :
    RouteHandler C T → Runtime C T → Request → Bool × List (Ev T)
  | .pageOnly _, _, _ => (false, [])
  | .pageAndLive _ live, rt, r => serveLiveModule rt r live

end Fw

namespace Engine

open Fw

/-- Which engine pass a handler was probed in. -/
inductive Phase where
  | live
  | page
deriving DecidableEq, Repr

/-- One dispatch probe: the pass, the handler's registration index, the
events the try-serve call produced, and whether it reported served. -/
structure Probe (T : Type) where
  phase : Phase
  index : Nat
  events : List (Ev T)
  served : Bool
deriving DecidableEq

/-- The common shape of the two loops of Engine.ServeRoute: try the
given capability of each handler in registration order, stopping at the
first that reports served. The probe list records every call made. -/
def tryLoop {C T : Type} (tryServe : RouteHandler C T → Bool × List (Ev T)) (ph : Phase) :
    List (RouteHandler C T) → Nat → Option Nat × List (Probe T)
  | [], _ => (none, [])
  | h :: rest, i =>
    let res := tryServe h
    if res.1 then (some i, [⟨ph, i, res.2, true⟩])
    else
      let next := tryLoop tryServe ph rest (i + 1)
      (next.1, ⟨ph, i, res.2, false⟩ :: next.2)

/-- The first loop of Engine.ServeRoute (engine package): TryServeLive
over the handlers. -/
def liveLoop {C T : Type} (rt : Runtime C T) (r : Request) :
    List (RouteHandler C T) → Nat → Option Nat × List (Probe T) :=
  tryLoop (fun h => h.tryServeLive rt r) .live

/-- The second loop of Engine.ServeRoute: TryServePage over the
handlers. -/
def pageLoop {C T : Type} (rt : Runtime C T) (r : Request) :
    List (RouteHandler C T) → Nat → Option Nat × List (Probe T) :=
  tryLoop (fun h => h.tryServePage rt r) .page

/-- Engine.ServeRoute: the live pass over all handlers, then the page
pass, returning whether any handler served; the probe list is the full
ordered record of try-serve invocations. -/
def serveRoute {C T : Type} (hs : List (RouteHandler C T)) (rt : Runtime C T)
    (r : Request) : Bool × List (Probe T) :=
  match liveLoop rt r hs 0 with
  | (some _, probes) => (true, probes)
  | (none, probes) =>
    match pageLoop rt r hs 0 with
    | (some _, probes₂) => (true, probes ++ probes₂)
    | (none, probes₂) => (false, probes ++ probes₂)

end Engine

namespace Fw16

open GoStr Fw

/-- The part_016 framework variant's runtime capabilities: it adds the
partial-request predicate and its RespondNotFound carries a
NotFoundContext. -/
structure Runtime (C T : Type) where
  appContext : C
  isPartialReq : Request → Bool
  renderPageResult : Request → T → Except String Unit
  isNotFound : String → Bool

/-- Events of the part_016 variant; RespondNotFound carries the
structured context. -/
inductive Ev (T : Type) where
  | pageLoad
  | renderPage (component : T)
  | respondNotFound (notFoundContext : NotFoundContext)
  | respondServerError (message : String)
deriving DecidableEq

/-- part_016 handleLoadError: a not-found-classified load error responds
not-found with the request path, the matched route pattern and the given
source tag. -/
def handleLoadError {C T : Type} (rt : Runtime C T) (r : Request) (err : String)
    (routePattern source : String) : List (Ev T) :=
  if rt.isNotFound err then
    [.respondNotFound ⟨r.path, routePattern, source⟩]
  else [.respondServerError ("load route " ++ goQuote routePattern ++ ": " ++ err)]

/-- part_016 servePageModule: like the contracts.go variant, but load
errors carry the page_load source and layouts are skipped for partial
requests. -/
def servePageModule {C P VM T : Type} (rt : Runtime C T) (r : Request)
    (m : PageModule C P VM T) : Bool × List (Ev T) :=
  match m.ParseParams r.path with
  | none => (false, [])
  | some params =>
    match m.Load rt.appContext r params with
    | .error err =>
      (true, .pageLoad :: handleLoadError rt r err m.Pattern notFoundSourcePageLoad)
    | .ok view =>
      let rendered := m.Render view
      let component :=
        if ¬ rt.isPartialReq r then applyLayouts m.Layouts view rendered else rendered
      match rt.renderPageResult r component with
      | .ok _ => (true, [.pageLoad, .renderPage component])
      | .error err => (true, [.pageLoad, .renderPage component,
          .respondServerError ("render route " ++ goQuote m.Pattern ++ ": " ++ err)])

end Fw16

namespace Httpserver

open Fw Engine

/-- Top-level observations of server.handleRoute (part_018): the health
short-circuit, the engine dispatch with its probes, and the
unmatched-route not-found response. -/
inductive ServerEv (T : Type) : Type where
  | health
  | engine (probes : List (Engine.Probe T))
  | notFoundCtx (notFoundContext : NotFoundContext)

/-- server.handleRoute (part_018): answer the health path directly,
otherwise dispatch through the engine; when no handler serves, respond
not-found with a context carrying the request path, the
unmatched_route source, and the zero-value (empty) matched pattern. -/
def serverHandleRoute {C T : Type} (healthPath : String)
    (hs : List (RouteHandler C T)) (rt : Runtime C T) (r : Request) :
    List (ServerEv T) :=
  if r.path = healthPath then [.health]
  else
    let res := serveRoute hs rt r
    if res.1 then [.engine res.2]
    else [.engine res.2,
      .notFoundCtx ⟨r.path, "", notFoundSourceUnmatchedRoute⟩]

end Httpserver

namespace Gen

open GoStr

/-- ASCII lower-casing of one character, total on the alphanumeric and
underscore characters these identifiers consist of. -/
def asciiLower (c : Char) : Char :=
  if 'A' ≤ c ∧ c ≤ 'Z' then Char.ofNat (c.toNat + 32) else c

/-- ASCII upper-casing of one character. -/
def asciiUpper (c : Char) : Char :=
  if 'a' ≤ c ∧ c ≤ 'z' then Char.ofNat (c.toNat - 32) else c

/-- Go strings.Contains. -/
def strContains (s t : String) : Bool :=
  (List.range (s.data.length + 1)).any
    (fun i => (s.data.drop i).take t.data.length = t.data)

/-- Accumulator pass of Go strings.Fields: split on white space,
dropping empty fields. -/
def fieldsAux : List Char → List Char → List (List Char)
  | [], current => if current = [] then [] else [current.reverse]
  | c :: rest, current =>
    if goIsSpace c then
      if current = [] then fieldsAux rest []
      else current.reverse :: fieldsAux rest []
    else fieldsAux rest (c :: current)

/-- Go strings.Fields on a character list. -/
def fieldsOn (l : List Char) : List (List Char) := fieldsAux l []

/-- approutegen safeIdentifier: trim, replace non-alphanumerics with
underscores, trim underscores, lower-case; "value" when nothing
remains. -/
def safeIdentifier (value : String) : String :=
  let trimmed := goTrimL value.data
  if trimmed = [] then "value"
  else
    let normalized := trimmed.map (fun c => if isAsciiAlpha c ∨ isAsciiDigit c then c else '_')
    let stripped := ((normalized.dropWhile (· = '_')).reverse.dropWhile (· = '_')).reverse
    if stripped = [] then "value" else ⟨stripped.map asciiLower⟩

/-- approutegen pascalToken: replace non-alphanumerics with spaces, split
into fields, and capitalize each field (first character upper, rest
lower). -/
def pascalToken (value : String) : String :=
  let normalized := (goTrimL value.data).map
    (fun c => if isAsciiAlpha c ∨ isAsciiDigit c then c else ' ')
  let parts := fieldsOn normalized
  String.join (parts.map (fun part =>
    match part with
    | [] => ""
    | c :: rest => (⟨asciiUpper c :: rest.map asciiLower⟩ : String)))

/-- approutegen routeSegment: a static literal or a dynamic parameter;
the segment is dynamic exactly when ParamName is nonempty. -/
structure routeSegment where
  StaticName : String
  ParamName : String
deriving DecidableEq, Repr

/-- routeSegment.IsParam. -/
def routeSegment.IsParam (s : routeSegment) : Bool := s.ParamName ≠ ""

/-- routeSegment.RoutePart: the bracketed parameter name, or the static
literal. -/
def routeSegment.RoutePart (s : routeSegment) : String :=
  if s.IsParam then "[" ++ s.ParamName ++ "]" else s.StaticName

/-- routeSegment.SafePart: identifier-safe segment form. -/
def routeSegment.SafePart (s : routeSegment) : String :=
  if s.IsParam then "param_" ++ (⟨s.ParamName.data.map asciiLower⟩ : String)
  else safeIdentifier s.StaticName

/-- approutegen parseRouteSegment: the generation-time segment parser.
Bracket-wrapped names are dynamic, stray brackets and empty segments are
errors, and the legacy underscore form is rejected with the migration
hint. -/
def parseRouteSegment (part : String) : Except String routeSegment :=
  let trimmed := goTrimSpace part
  if trimmed = "" then .error "route segment cannot be empty"
  else if strStartsWith trimmed "[" ∨ strEndsWith trimmed "]" then
    if ¬ (strStartsWith trimmed "[" ∧ strEndsWith trimmed "]") then
      .error ("invalid wildcard segment " ++ goQuote part)
    else
      let name := goTrimSpace ⟨(trimmed.data.drop 1).dropLast⟩
      if ¬ dynNameOK name then .error ("invalid wildcard name " ++ goQuote name)
      else .ok ⟨"", name⟩
  else if strStartsWith trimmed "_" then
    .error ("legacy wildcard segment " ++ goQuote part ++
      " is not allowed; use [param] directories")
  else if containsBracket trimmed then
    .error ("invalid static segment " ++ goQuote part)
  else .ok ⟨trimmed, ""⟩

/-- approutegen parseRouteSegments: split the route directory on slashes
and parse each part; the empty directory has no segments. -/
def parseRouteSegments (routeDir : String) : Except String (List routeSegment) :=
  if goTrimSpace routeDir = "" then .ok []
  else
    go ((splitOnSlash routeDir.data).map (fun l => (⟨l⟩ : String)))
where
  go : List String → Except String (List routeSegment)
  | [] => .ok []
  | part :: rest =>
    match parseRouteSegment part with
    | .error e => .error e
    | .ok segment => (go rest).map (fun segs => segment :: segs)

/-- approutegen routeIDFromSegments: slash-joined route parts, empty for
the root route. -/
def routeIDFromSegments (segments : List routeSegment) : String :=
  if segments = [] then ""
  else String.intercalate "/" (segments.map routeSegment.RoutePart)

/-- approutegen template kinds. -/
inductive templateKind where
  | page
  | layout
deriving DecidableEq, Repr

/-- The string value of a template kind (used in module names, file
names and the kind sort key). -/
def templateKind.str : templateKind → String
  | .page => "page"
  | .layout => "layout"

/-- approutegen moduleNameFor: r_(kind)(safe segment parts), with root
for the empty route. -/
def moduleNameFor (kind : templateKind) (segments : List routeSegment) : String :=
  let parts := ["r", kind.str] ++
    (if segments = [] then ["root"] else segments.map routeSegment.SafePart)
  String.intercalate "_" parts

/-- approutegen templateDef: one discovered template with its generated
module coordinates. -/
structure templateDef where
  Kind : templateKind
  RouteID : String
  SourcePath : String
  Segments : List routeSegment
  ModuleName : String
  Package : String
  OutputDir : String
  OutputFile : String
deriving DecidableEq, Repr

/-- approutegen routeFiles: the discovery result. The Layouts Go map is
modelled as an association list in insertion (walk) order. -/
structure routeFiles where
  Templates : List templateDef
  Pages : List templateDef
  Layouts : List (String × templateDef)
deriving DecidableEq, Repr

/-- Association-list write with overwrite, modelling a Go map
assignment for arbitrary value types. -/
def assocAssign {β : Type} (m : List (String × β)) (k : String) (v : β) :
    List (String × β) :=
  match m with
  | [] => [(k, v)]
  | (a, b) :: rest => if a = k then (a, v) :: rest else (a, b) :: assocAssign rest k v

/-- The sort.Slice comparator for discovered templates: ascending
RouteID, then ascending kind string. -/
def tplLess (a b : templateDef) : Prop :=
  strLt a.RouteID b.RouteID ∨ (a.RouteID = b.RouteID ∧ strLt a.Kind.str b.Kind.str)

instance : DecidableRel tplLess := fun _ _ => by
  unfold tplLess; infer_instance

/-- The non-strict template order for the sort. -/
def tplLE (a b : templateDef) : Prop := ¬ tplLess b a

instance : DecidableRel tplLE := fun _ _ => by
  unfold tplLE; infer_instance

/-- The sort.Slice comparator for pages: ascending RouteID. -/
def pageLE (a b : templateDef) : Prop := ¬ strLt b.RouteID a.RouteID

instance : DecidableRel pageLE := fun _ _ => by
  unfold pageLE; infer_instance

/-- Go path.Dir for the already-clean relative paths discovery sees:
everything before the final slash, "." when there is none. -/
def goPathDir (s : String) : String :=
  let parts := splitOnSlash s.data
  if parts.length ≤ 1 then "."
  else goPathClean ⟨joinSlash parts.dropLast⟩

/-- The per-file body of approutegen discoverRouteFiles, on the
walk-relative slash path of one regular file. Returns none for skipped
files, an error for rejected ones, and the classified template
otherwise. -/
def discoverFile (appRoot outputRoot relPath : String) :
    Except String (Option templateDef) :=
  if ¬ strEndsWith relPath ".templ" then .ok none
  else if strStartsWith relPath "components/" then .ok none
  else if strContains relPath "/components/" then
    .error ("component templates must be under app/components only: " ++ goQuote relPath)
  else
    let base := goPathBase relPath
    let kindResult : Except String templateKind :=
      if base = "page.templ" then .ok .page
      else if base = "layout.templ" then .ok .layout
      else .error ("unsupported route template " ++ goQuote relPath ++
        "; only page.templ/layout.templ are allowed")
    match kindResult with
    | .error e => .error e
    | .ok kind =>
      let routeDir := goPathDir relPath
      let routeDir := if routeDir = "." then "" else routeDir
      match parseRouteSegments routeDir with
      | .error e => .error ("parse route in " ++ goQuote relPath ++ ": " ++ e)
      | .ok segments =>
        let routeID := routeIDFromSegments segments
        let moduleName := moduleNameFor kind segments
        .ok (some
          { Kind := kind
            RouteID := routeID
            SourcePath := appRoot ++ "/" ++ relPath
            Segments := segments
            ModuleName := moduleName
            Package := moduleName
            OutputDir := outputRoot ++ "/" ++ moduleName
            OutputFile := kind.str ++ ".templ" })

/-- The walk loop of discoverRouteFiles over the relative paths of the
regular files under the app root, in walk (lexical) order. -/
def discoverLoop (appRoot outputRoot : String) :
    List String → routeFiles → Except String routeFiles
  | [], acc => .ok acc
  | relPath :: rest, acc =>
    match discoverFile appRoot outputRoot relPath with
    | .error e => .error e
    | .ok none => discoverLoop appRoot outputRoot rest acc
    | .ok (some tpl) =>
      let acc :=
        { Templates := acc.Templates ++ [tpl]
          Pages := if tpl.Kind = .page then acc.Pages ++ [tpl] else acc.Pages
          Layouts := if tpl.Kind = .layout then assocAssign acc.Layouts tpl.RouteID tpl
                     else acc.Layouts }
      discoverLoop appRoot outputRoot rest acc

/-- approutegen discoverRouteFiles: walk, classify, then sort templates
by (RouteID, kind) and pages by RouteID. -/
def discoverRouteFiles (relPaths : List String) (appRoot outputRoot : String) :
    Except String routeFiles :=
  match discoverLoop appRoot outputRoot relPaths ⟨[], [], []⟩ with
  | .error e => .error ("walk app templates: " ++ e)
  | .ok files =>
    .ok { files with
      Templates := List.insertionSort tplLE files.Templates
      Pages := List.insertionSort pageLE files.Pages }

/-- approutegen routeParamDef. -/
structure routeParamDef where
  Name : String
  FieldName : String
deriving DecidableEq, Repr

/-- approutegen routeMeta: the fully resolved description of one page
route, as consumed by the source generators. -/
structure routeMeta where
  RouteID : String
  Segments : List routeSegment
  RouteName : String
  ParamsTypeName : String
  Params : List routeParamDef
  Page : templateDef
  ResolverDir : String
  ResolverImportPath : String
  ResolverAlias : String
  ResolverPackage : String
  ResolverField : String
  HasLive : Bool
  LiveSelectorID : String
deriving DecidableEq, Repr

/-- approutegen generationPaths. -/
structure generationPaths where
  AppRoot : String
  GenRoot : String
  GenImportRoot : String
  ResolverRoot : String
  ResolverImportRoot : String
deriving DecidableEq, Repr

/-- approutegen resolverRelativePath: parameter segments become
param_(lowercased name), statics stay; root for the empty route. -/
def resolverRelativePath (segments : List routeSegment) : String :=
  if segments = [] then "root"
  else String.intercalate "/" (segments.map (fun segment =>
    if segment.IsParam then "param_" ++ (⟨segment.ParamName.data.map asciiLower⟩ : String)
    else segment.StaticName))

/-- approutegen routeSafeKey. -/
def routeSafeKey (segments : List routeSegment) : String :=
  if segments = [] then "root"
  else String.intercalate "_" (segments.map routeSegment.SafePart)

/-- approutegen routeNameFromSegments: concatenated pascal tokens,
parameters prefixed with Param; Root for the empty route. -/
def routeNameFromSegments (segments : List routeSegment) : String :=
  if segments = [] then "Root"
  else
    let name := String.join (segments.map (fun segment =>
      if segment.IsParam then "Param" ++ pascalToken segment.ParamName
      else pascalToken segment.StaticName))
    if name = "" then "Root" else name

/-- approutegen routeParamsFromSegments: the dynamic segments in order,
rejecting empty or duplicate pascal field names. -/
def routeParamsFromSegments (routeID : String) (segments : List routeSegment) :
    Except String (List routeParamDef) :=
  go segments []
where
  go : List routeSegment → List String → Except String (List routeParamDef)
  | [], _ => .ok []
  | segment :: rest, seen =>
    if ¬ segment.IsParam then go rest seen
    else
      let fieldName := pascalToken segment.ParamName
      if fieldName = "" then
        .error ("route " ++ goQuote routeID ++ " has invalid param name " ++
          goQuote segment.ParamName)
      else if seen.contains fieldName then
        .error ("route " ++ goQuote routeID ++ " has duplicate param field " ++
          goQuote fieldName)
      else
        (go rest (fieldName :: seen)).map (fun params =>
          ⟨segment.ParamName, fieldName⟩ :: params)

/-- approutegen resolverTypeDecl: the outcome of source-level inspection
of a route's types.go. -/
structure resolverTypeDecl where
  PackageName : String
  HasLiveState : Bool
deriving DecidableEq, Repr

/-- The source-level summary of one types.go file: its package name and
its declared type names, as the go/ast inspection in readResolverTypes
observes them. -/
structure goTypesFile where
  PackageName : String
  typeNames : List String
deriving DecidableEq, Repr

/-- approutegen readResolverTypes, with the filesystem supplied as a
lookup from path to parsed file summary: a missing file, a blank package
name or a missing PageView declaration are errors; a LiveState
declaration marks the route live-capable. -/
def readResolverTypes (fsTypes : String → Option goTypesFile) (typesPath : String) :
    Except String resolverTypeDecl :=
  match fsTypes typesPath with
  | none => .error ("required resolver type file missing: " ++ goQuote typesPath)
  | some file =>
    let pkgName := goTrimSpace file.PackageName
    if pkgName = "" then .error (goQuote typesPath ++ " has invalid package name")
    else
      let declared := file.typeNames.map goTrimSpace
      if ¬ declared.contains "PageView" then
        .error (goQuote typesPath ++ " must declare type PageView")
      else .ok ⟨pkgName, declared.contains "LiveState"⟩

/-- The non-strict meta order of the buildRouteMetas sort: ascending
RouteID. -/
def metaLE (a b : routeMeta) : Prop := ¬ strLt b.RouteID a.RouteID

instance : DecidableRel metaLE := fun _ _ => by
  unfold metaLE; infer_instance

/-- approutegen buildRouteMetas: resolve each page's resolver contract
(via the supplied types.go lookup), derive names, params and liveness
(the live selector extraction from the page template source is supplied
as a lookup), then sort by RouteID. -/
def buildRouteMetas (pages : List templateDef) (paths : generationPaths)
    (fsTypes : String → Option goTypesFile)
    (liveSelectorOf : String → Except String String) :
    Except String (List routeMeta) :=
  (go pages).map (List.insertionSort metaLE)
where
  go : List templateDef → Except String (List routeMeta)
  | [] => .ok []
  | page :: rest =>
    let resolverRel := resolverRelativePath page.Segments
    let resolverDir := paths.ResolverRoot ++ "/" ++ resolverRel
    match readResolverTypes fsTypes (resolverDir ++ "/" ++ "types.go") with
    | .error e => .error ("route " ++ goQuote page.RouteID ++ ": " ++ e)
    | .ok typeDecl =>
      match routeParamsFromSegments page.RouteID page.Segments with
      | .error e => .error e
      | .ok params =>
        let routeName := routeNameFromSegments page.Segments
        let meta : routeMeta :=
          { RouteID := page.RouteID
            Segments := page.Segments
            RouteName := routeName
            ParamsTypeName := routeName ++ "Params"
            Params := params
            Page := page
            ResolverDir := resolverDir
            ResolverImportPath := paths.ResolverImportRoot ++ "/" ++ resolverRel
            ResolverAlias := "rr_" ++ routeSafeKey page.Segments
            ResolverPackage := typeDecl.PackageName
            ResolverField := "r" ++ routeName
            HasLive := typeDecl.HasLiveState
            LiveSelectorID := "" }
        match (if meta.HasLive then (liveSelectorOf page.SourcePath).map some
               else .ok none : Except String (Option String)) with
        | .error e => .error ("route " ++ goQuote page.RouteID ++ ": " ++ e)
        | .ok selector =>
          let meta := match selector with
            | some selectorID => { meta with LiveSelectorID := selectorID }
            | none => meta
          (go rest).map (fun metas => meta :: metas)

end Gen

namespace Gen

open GoStr

/-- sort.Strings: ascending string sort. Go's pdqsort and insertion sort
agree because string ordering is a total order. -/
def sortStrings (values : List String) : List String :=
  List.insertionSort strLe values

/-- The skip-equal-to-previous pass of dedupeSorted after sorting. -/
def dedupeAux (previous : String) : List String → List String
  | [] => []
  | v :: rest => if v = previous then dedupeAux previous rest else v :: dedupeAux v rest

/-- approutegen dedupeSorted: sort, then drop adjacent duplicates. -/
def dedupeSorted (values : List String) : List String :=
  match sortStrings values with
  | [] => []
  | v :: rest => v :: dedupeAux v rest

/-- approutegen defaultLiveBadRequestMessage. -/
def defaultLiveBadRequestMessage : String := "invalid datastar signal payload"

/-- approutegen routePattern: "/" plus the route id ("/" for the root). -/
def routePattern (routeID : String) : String :=
  if routeID = "" then "/" else "/" ++ routeID

/-- approutegen resolvePageMethod. -/
def resolvePageMethod (meta : routeMeta) : String := "Resolve" ++ meta.RouteName ++ "Page"

/-- approutegen parseLiveMethod. -/
def parseLiveMethod (meta : routeMeta) : String := "Parse" ++ meta.RouteName ++ "LiveState"

/-- approutegen resolveLiveMethod. -/
def resolveLiveMethod (meta : routeMeta) : String := "Resolve" ++ meta.RouteName ++ "Live"

/-- approutegen wrapperFuncName. -/
def wrapperFuncName (routeName layoutName : String) : String :=
  "wrap" ++ routeName ++ "With" ++ layoutName ++ "Layout"

/-- approutegen parseParamsFuncName. -/
def parseParamsFuncName (meta : routeMeta) (live : Bool) : String :=
  if live then "parse" ++ meta.RouteName ++ "LiveParams"
  else "parse" ++ meta.RouteName ++ "Params"

/-- approutegen layoutChain: look each path-prefix of the route (root
first, then longer prefixes) up in the layout map and keep the hits in
that order, so the outermost (root) layout comes first. -/
def layoutChain (routeID : String) (layouts : List (String × templateDef)) :
    List templateDef :=
  let segments : List String :=
    if routeID = "" then []
    else (splitOnSlash routeID.data).map (fun l => (⟨l⟩ : String))
  let candidates := "" :: (List.range segments.length).map
    (fun idx => String.intercalate "/" (segments.take (idx + 1)))
  candidates.filterMap (fun candidate => Router.assocFind layouts candidate)

/-- The resolver-import loop of generateContractsSource, deduplicating
by already-seen alias while iterating metas in order. -/
def contractsResolverImports : List routeMeta → List String → List String
  | [], _ => []
  | meta :: rest, seen =>
    if seen.contains meta.ResolverAlias then contractsResolverImports rest seen
    else (meta.ResolverAlias ++ " \"blog/" ++ meta.ResolverImportPath ++ "\"") ::
      contractsResolverImports rest (meta.ResolverAlias :: seen)

/-- approutegen writeParamsStruct: the params struct declaration text. -/
def writeParamsStruct (meta : routeMeta) : String :=
  "type " ++ meta.ParamsTypeName ++ " struct \x7b\n" ++
  String.join (meta.Params.map (fun p => "\t" ++ p.FieldName ++ " string\n")) ++
  "\x7d\n\n"

/-- The RouteResolvers interface lines one meta contributes. -/
def contractsMethodLines (meta : routeMeta) : String :=
  "\t" ++ resolvePageMethod meta ++
    "(ctx context.Context, appCtx *appcore.Context, r *http.Request, params " ++
    meta.ParamsTypeName ++ ") (" ++ meta.ResolverAlias ++ ".PageView, error)\n" ++
  (if meta.HasLive then
    "\t" ++ parseLiveMethod meta ++ "(r *http.Request) (" ++ meta.ResolverAlias ++
      ".LiveState, error)\n" ++
    "\t" ++ resolveLiveMethod meta ++
      "(ctx context.Context, appCtx *appcore.Context, r *http.Request, params " ++
      meta.ParamsTypeName ++ ", state " ++ meta.ResolverAlias ++ ".LiveState) (" ++
      meta.ResolverAlias ++ ".PageView, error)\n"
  else "")

/-- approutegen generateContractsSource: fixed imports plus the sorted
deduplicated resolver imports, the params structs in meta order, and the
RouteResolvers interface; the result passes through go/format
(format.Source), supplied as a function. -/
def generateContractsSource (gofmt : String → Except String String)
    (metas : List routeMeta) : Except String String :=
  let importLines := ["\"context\"", "\"net/http\"", "\"blog/internal/web/appcore\""] ++
    sortStrings (contractsResolverImports metas [])
  let buffer :=
    "// Code generated by framework/cmd/approutegen. DO NOT EDIT.\n" ++
    "package gen\n\n" ++
    "import (\n" ++ String.join (importLines.map (fun l => "\t" ++ l ++ "\n")) ++ ")\n\n" ++
    String.join (metas.map writeParamsStruct) ++
    "type RouteResolvers interface \x7b\n" ++
    String.join (metas.map contractsMethodLines) ++
    "\x7d\n"
  match gofmt buffer with
  | .error e => .error ("format contracts source: " ++ e)
  | .ok formatted => .ok formatted

/-- approutegen writePageModule: the PageModule literal of one handler. -/
def writePageModule (meta : routeMeta) (layouts : List (String × templateDef)) : String :=
  "\t\t\tPage: framework.PageModule[*appcore.Context, " ++ meta.ParamsTypeName ++ ", " ++
    meta.ResolverAlias ++ ".PageView]\x7b\n" ++
  "\t\t\t\tPattern:     " ++ goQuote (routePattern meta.RouteID) ++ ",\n" ++
  "\t\t\t\tParseParams: " ++ parseParamsFuncName meta false ++ ",\n" ++
  "\t\t\t\tLoad: func(ctx context.Context, appCtx *appcore.Context, r *http.Request, " ++
    "params " ++ meta.ParamsTypeName ++ ") (" ++ meta.ResolverAlias ++ ".PageView, error) \x7b\n" ++
  "\t\t\t\t\treturn resolvers." ++ resolvePageMethod meta ++ "(ctx, appCtx, r, params)\n" ++
  "\t\t\t\t\x7d,\n" ++
  "\t\t\t\tRender: " ++ meta.Page.ModuleName ++ ".Page,\n" ++
  (let chain := layoutChain meta.RouteID layouts
   if chain = [] then
     "\t\t\t\tLayouts: []framework.LayoutRenderer[" ++ meta.ResolverAlias ++
       ".PageView]\x7b\x7d,\n"
   else
     "\t\t\t\tLayouts: []framework.LayoutRenderer[" ++ meta.ResolverAlias ++
       ".PageView]\x7b\n" ++
     String.join (chain.map (fun layout =>
       "\t\t\t\t\t" ++ wrapperFuncName meta.RouteName (routeNameFromSegments layout.Segments) ++
         ",\n")) ++
     "\t\t\t\t\x7d,\n") ++
  "\t\t\t\x7d,\n"

/-- approutegen writeLiveModule: the LiveModule literal of a live-capable
handler; the bad-request message is always the generator default. -/
def writeLiveModule (meta : routeMeta) : String :=
  "\t\t\tLive: framework.LiveModule[*appcore.Context, " ++ meta.ParamsTypeName ++ ", " ++
    meta.ResolverAlias ++ ".PageView, " ++ meta.ResolverAlias ++ ".LiveState]\x7b\n" ++
  "\t\t\t\tPattern:           " ++ goQuote (routePattern meta.RouteID ++ "/live") ++ ",\n" ++
  "\t\t\t\tParseParams:       " ++ parseParamsFuncName meta true ++ ",\n" ++
  "\t\t\t\tParseState:        resolvers." ++ parseLiveMethod meta ++ ",\n" ++
  "\t\t\t\tLoad: func(ctx context.Context, appCtx *appcore.Context, r *http.Request, " ++
    "params " ++ meta.ParamsTypeName ++ ", state " ++ meta.ResolverAlias ++
    ".LiveState) (" ++ meta.ResolverAlias ++ ".PageView, error) \x7b\n" ++
  "\t\t\t\t\treturn resolvers." ++ resolveLiveMethod meta ++ "(ctx, appCtx, r, params, state)\n" ++
  "\t\t\t\t\x7d,\n" ++
  "\t\t\t\tRender:            " ++ meta.Page.ModuleName ++ ".Page,\n" ++
  "\t\t\t\tSelectorID:        " ++ goQuote meta.LiveSelectorID ++ ",\n" ++
  "\t\t\t\tBadRequestMessage: " ++ goQuote defaultLiveBadRequestMessage ++ ",\n" ++
  "\t\t\t\x7d,\n"

/-- approutegen writeParseParamsFunc: the generated parameter parser for
a route (or its live twin), matching with router.MatchPathPattern and
validating slug parameters with router.IsValidSlug. -/
def writeParseParamsFunc (meta : routeMeta) (live : Bool) : String :=
  let funcName := parseParamsFuncName meta live
  let pattern := routePattern meta.RouteID ++ (if live then "/live" else "")
  "func " ++ funcName ++ "(requestPath string) (" ++ meta.ParamsTypeName ++ ", bool) \x7b\n" ++
  (if meta.Params = [] then
    "\t_, ok := router.MatchPathPattern(" ++ goQuote pattern ++ ", requestPath)\n" ++
    "\tif !ok \x7b\n" ++
    "\t\treturn " ++ meta.ParamsTypeName ++ "\x7b\x7d, false\n" ++
    "\t\x7d\n" ++
    "\treturn " ++ meta.ParamsTypeName ++ "\x7b\x7d, true\n" ++
    "\x7d\n\n"
  else
    "\tparams, ok := router.MatchPathPattern(" ++ goQuote pattern ++ ", requestPath)\n" ++
    "\tif !ok \x7b\n" ++
    "\t\treturn " ++ meta.ParamsTypeName ++ "\x7b\x7d, false\n" ++
    "\t\x7d\n" ++
    "\tout := " ++ meta.ParamsTypeName ++ "\x7b\x7d\n" ++
    String.join (meta.Params.map (fun param =>
      "\t" ++ param.FieldName ++ "Value := strings.TrimSpace(params[" ++
        goQuote param.Name ++ "])\n" ++
      (if param.Name = "slug" then
        "\tif !router.IsValidSlug(" ++ param.FieldName ++ "Value) \x7b\n" ++
        "\t\treturn " ++ meta.ParamsTypeName ++ "\x7b\x7d, false\n" ++
        "\t\x7d\n"
      else "") ++
      "\tout." ++ param.FieldName ++ " = " ++ param.FieldName ++ "Value\n")) ++
    "\treturn out, true\n" ++
    "\x7d\n\n")

/-- approutegen layoutWrapperDef. -/
structure layoutWrapperDef where
  Name : String
  ViewAlias : String
  LayoutModule : String
deriving DecidableEq, Repr

/-- The inner chain loop of collectLayoutWrappers for one meta. -/
def addWrappers (meta : routeMeta) :
    List templateDef → List (String × layoutWrapperDef) →
    Except String (List (String × layoutWrapperDef))
  | [], wrappers => .ok wrappers
  | layout :: rest, wrappers =>
    let layoutName := routeNameFromSegments layout.Segments
    let name := wrapperFuncName meta.RouteName layoutName
    let wdef : layoutWrapperDef := ⟨name, meta.ResolverAlias, layout.ModuleName⟩
    match Router.assocFind wrappers name with
    | none => addWrappers meta rest (wrappers ++ [(name, wdef)])
    | some existing =>
      if existing.ViewAlias ≠ wdef.ViewAlias ∨ existing.LayoutModule ≠ wdef.LayoutModule then
        .error ("layout wrapper conflict for " ++ goQuote name)
      else addWrappers meta rest wrappers

/-- approutegen collectLayoutWrappers: one wrapper per distinct
(route, ancestor layout) name, rejecting same-named wrappers that would
need different types. The wrappers Go map is an association list in
insertion order; only sorted-key iteration consumes it. -/
def collectLayoutWrappers (metas : List routeMeta)
    (layouts : List (String × templateDef)) :
    Except String (List (String × layoutWrapperDef)) :=
  go metas []
where
  go : List routeMeta → List (String × layoutWrapperDef) →
      Except String (List (String × layoutWrapperDef))
  | [], wrappers => .ok wrappers
  | meta :: rest, wrappers =>
    match addWrappers meta (layoutChain meta.RouteID layouts) wrappers with
    | .error e => .error e
    | .ok wrappers => go rest wrappers

/-- The module-import entries of generateRegistrySource: per-meta page
module and resolver imports in meta order, then layout-module imports in
sorted layout-key order. -/
def registryModuleImports (paths : generationPaths) (metas : List routeMeta)
    (layouts : List (String × templateDef)) : List String :=
  (metas.flatMap (fun meta =>
    [meta.Page.ModuleName ++ " \"blog/" ++ paths.GenImportRoot ++ "/" ++
       meta.Page.ModuleName ++ "\"",
     meta.ResolverAlias ++ " \"blog/" ++ meta.ResolverImportPath ++ "\""])) ++
  ((sortStrings (layouts.map Prod.fst)).filterMap (fun routeID =>
    (Router.assocFind layouts routeID).map (fun layout =>
      layout.ModuleName ++ " \"blog/" ++ paths.GenImportRoot ++ "/" ++
        layout.ModuleName ++ "\"")))

/-- approutegen generateRegistrySource: fixed plus deduplicated sorted
module imports, the Handlers registry in meta order, the parse functions,
and the layout wrapper functions in sorted name order; formatted at the
end. -/
def generateRegistrySource (gofmt : String → Except String String)
    (paths : generationPaths) (metas : List routeMeta)
    (layouts : List (String × templateDef)) : Except String String :=
  let importLines := ["\"context\"", "\"net/http\"", "\"strings\"", "\"blog/framework\"",
    "\"blog/framework/router\"", "\"blog/internal/web/appcore\"",
    "\"github.com/a-h/templ\""] ++
    dedupeSorted (registryModuleImports paths metas layouts)
  let handlerBlocks := String.join (metas.map (fun meta =>
    (if meta.HasLive then
      "\t\tframework.PageAndLiveRouteHandler[*appcore.Context, " ++ meta.ParamsTypeName ++
        ", " ++ meta.ResolverAlias ++ ".PageView, " ++ meta.ResolverAlias ++ ".LiveState]\x7b\n"
    else
      "\t\tframework.PageOnlyRouteHandler[*appcore.Context, " ++ meta.ParamsTypeName ++
        ", " ++ meta.ResolverAlias ++ ".PageView]\x7b\n") ++
    writePageModule meta layouts ++
    (if meta.HasLive then writeLiveModule meta else "") ++
    "\t\t\x7d,\n"))
  let parseFuncs := String.join (metas.map (fun meta =>
    writeParseParamsFunc meta false ++
    (if meta.HasLive then writeParseParamsFunc meta true else "")))
  match collectLayoutWrappers metas layouts with
  | .error e => .error e
  | .ok wrappers =>
    let wrapperNames := sortStrings (wrappers.map Prod.fst)
    let wrapperFuncs := String.join (wrapperNames.filterMap (fun name =>
      (Router.assocFind wrappers name).map (fun w =>
        "func " ++ w.Name ++ "(view " ++ w.ViewAlias ++
          ".PageView, child templ.Component) templ.Component \x7b\n" ++
        "\treturn " ++ w.LayoutModule ++ ".Layout(view, child)\n" ++
        "\x7d\n\n")))
    let buffer :=
      "// Code generated by framework/cmd/approutegen. DO NOT EDIT.\n" ++
      "package gen\n\n" ++
      "import (\n" ++ String.join (importLines.map (fun l => "\t" ++ l ++ "\n")) ++ ")\n\n" ++
      "func Handlers(resolvers RouteResolvers) []framework.RouteHandler[*appcore.Context] \x7b\n" ++
      "\treturn []framework.RouteHandler[*appcore.Context]\x7b\n" ++
      handlerBlocks ++
      "\t\x7d\n" ++
      "\x7d\n\n" ++
      parseFuncs ++
      wrapperFuncs
    match gofmt buffer with
    | .error e => .error ("format registry source: " ++ e)
    | .ok formatted => .ok formatted

/-- The adapter block one meta contributes to generateResolversSource. -/
def resolverAdapterBlock (meta : routeMeta) : String :=
  "func (r *generatedResolvers) " ++ resolvePageMethod meta ++
    "(ctx context.Context, appCtx *appcore.Context, req *http.Request, params " ++
    meta.ParamsTypeName ++ ") (" ++ meta.ResolverAlias ++ ".PageView, error) \x7b\n" ++
  "\treturn r." ++ meta.ResolverField ++ ".ResolvePage(ctx, appCtx, req, to" ++
    meta.RouteName ++ "Params(params))\n" ++
  "\x7d\n\n" ++
  (if meta.HasLive then
    "func (r *generatedResolvers) " ++ parseLiveMethod meta ++ "(req *http.Request) (" ++
      meta.ResolverAlias ++ ".LiveState, error) \x7b\n" ++
    "\treturn r." ++ meta.ResolverField ++ ".ParseLiveState(req)\n" ++
    "\x7d\n\n" ++
    "func (r *generatedResolvers) " ++ resolveLiveMethod meta ++
      "(ctx context.Context, appCtx *appcore.Context, req *http.Request, params " ++
      meta.ParamsTypeName ++ ", state " ++ meta.ResolverAlias ++ ".LiveState) (" ++
      meta.ResolverAlias ++ ".PageView, error) \x7b\n" ++
    "\treturn r." ++ meta.ResolverField ++ ".ResolveLive(ctx, appCtx, req, to" ++
      meta.RouteName ++ "Params(params), state)\n" ++
    "\x7d\n\n"
  else "") ++
  "func to" ++ meta.RouteName ++ "Params(params " ++ meta.ParamsTypeName ++ ") " ++
    meta.ResolverAlias ++ ".Params \x7b\n" ++
  (if meta.Params = [] then
    "\t_ = params\n" ++
    "\treturn " ++ meta.ResolverAlias ++ ".Params\x7b\x7d\n" ++
    "\x7d\n\n"
  else
    "\treturn " ++ meta.ResolverAlias ++ ".Params\x7b\n" ++
    String.join (meta.Params.map (fun param =>
      "\t\t" ++ param.FieldName ++ ": params." ++ param.FieldName ++ ",\n")) ++
    "\t\x7d\n" ++
    "\x7d\n\n")

/-- approutegen generateResolversSource: the generatedResolvers struct,
constructor, compile-time assertion and per-route adapter methods, with
sorted deduplicated resolver imports. -/
def generateResolversSource (gofmt : String → Except String String)
    (metas : List routeMeta) : Except String String :=
  let routeImports := dedupeSorted (metas.map (fun meta =>
    meta.ResolverAlias ++ " \"blog/" ++ meta.ResolverImportPath ++ "\""))
  let importLines := ["\"context\"", "\"net/http\"", "\"blog/internal/web/appcore\""] ++
    routeImports
  let buffer :=
    "// Code generated by framework/cmd/approutegen. DO NOT EDIT.\n" ++
    "package gen\n\n" ++
    "import (\n" ++ String.join (importLines.map (fun l => "\t" ++ l ++ "\n")) ++ ")\n\n" ++
    "type generatedResolvers struct \x7b\n" ++
    String.join (metas.map (fun meta =>
      "\t" ++ meta.ResolverField ++ " " ++ meta.ResolverAlias ++ ".Resolver\n")) ++
    "\x7d\n\n" ++
    "func NewRouteResolvers() RouteResolvers \x7b\n" ++
    "\treturn &generatedResolvers\x7b\x7d\n" ++
    "\x7d\n\n" ++
    "var _ RouteResolvers = (*generatedResolvers)(nil)\n\n" ++
    String.join (metas.map resolverAdapterBlock)
  match gofmt buffer with
  | .error e => .error ("format resolver adapter source: " ++ e)
  | .ok formatted => .ok formatted

/-- approutegen generateRouteResolverStubSource: the compiling
not-implemented resolver stub for a route lacking a hand-written
resolver.go. -/
def generateRouteResolverStubSource (gofmt : String → Except String String)
    (meta : routeMeta) : Except String String :=
  let buffer :=
    "package " ++ meta.ResolverPackage ++ "\n\n" ++
    "import (\n\t\"context\"\n\t\"errors\"\n\t\"net/http\"\n\t\"blog/internal/web/appcore\"\n)\n\n" ++
    "type Params struct \x7b\n" ++
    String.join (meta.Params.map (fun param => "\t" ++ param.FieldName ++ " string\n")) ++
    "\x7d\n\n" ++
    "type routeResolver interface \x7b\n" ++
    "\tResolvePage(ctx context.Context, appCtx *appcore.Context, r *http.Request, params Params) (PageView, error)\n" ++
    (if meta.HasLive then
      "\tParseLiveState(r *http.Request) (LiveState, error)\n" ++
      "\tResolveLive(ctx context.Context, appCtx *appcore.Context, r *http.Request, " ++
        "params Params, state LiveState) (PageView, error)\n"
    else "") ++
    "\x7d\n\n" ++
    "type Resolver struct\x7b\x7d\n\n" ++
    "var _ routeResolver = (*Resolver)(nil)\n\n" ++
    "func (Resolver) ResolvePage(ctx context.Context, appCtx *appcore.Context, r *http.Request, " ++
      "params Params) (PageView, error) \x7b\n" ++
    "\t_ = ctx\n\t_ = appCtx\n\t_ = r\n\t_ = params\n" ++
    "\tvar view PageView\n" ++
    "\treturn view, errors.New(" ++
      goQuote ("TODO: implement ResolvePage for route " ++ routePattern meta.RouteID) ++ ")\n" ++
    "\x7d\n\n" ++
    (if meta.HasLive then
      "func (Resolver) ParseLiveState(r *http.Request) (LiveState, error) \x7b\n" ++
      "\t_ = r\n" ++
      "\tvar state LiveState\n" ++
      "\treturn state, errors.New(" ++
        goQuote ("TODO: implement ParseLiveState for route " ++ routePattern meta.RouteID) ++ ")\n" ++
      "\x7d\n\n" ++
      "func (Resolver) ResolveLive(ctx context.Context, appCtx *appcore.Context, r *http.Request, " ++
        "params Params, state LiveState) (PageView, error) \x7b\n" ++
      "\t_ = ctx\n\t_ = appCtx\n\t_ = r\n\t_ = params\n\t_ = state\n" ++
      "\tvar view PageView\n" ++
      "\treturn view, errors.New(" ++
        goQuote ("TODO: implement ResolveLive for route " ++ routePattern meta.RouteID) ++ ")\n" ++
      "\x7d\n"
    else "")
  match gofmt buffer with
  | .error e => .error ("format route resolver stub for " ++ goQuote meta.RouteID ++ ": " ++ e)
  | .ok formatted => .ok formatted

end Gen

namespace Gen

open GoStr

/-- Split a character list on newlines (Go strings.Split with a newline
separator), as used by rewritePackageDeclaration. -/
def splitOnNl : List Char → List (List Char)
  | [] => [[]]
  | c :: rest =>
    if c = '\n' then [] :: splitOnNl rest
    else
      match splitOnNl rest with
      | [] => [[c]]
      | s :: ss => (c :: s) :: ss

/-- Join chunks with newlines (Go strings.Join with a newline
separator). -/
def joinNl : List (List Char) → List Char
  | [] => []
  | [s] => s
  | s :: rest => s ++ '\n' :: joinNl rest

/-- The line scan of rewritePackageDeclaration: replace the first line
whose trimmed form has the package keyword with the new declaration. -/
def rewritePackageLines (packageName : String) :
    List (List Char) → Option (List (List Char))
  | [] => none
  | line :: rest =>
    if strStartsWith ⟨goTrimL line⟩ "package " then
      some (("package " ++ packageName).data :: rest)
    else (rewritePackageLines packageName rest).map (line :: ·)

/-- approutegen rewritePackageDeclaration. -/
def rewritePackageDeclaration (source : String) (packageName : String) :
    Except String String :=
  match rewritePackageLines packageName (splitOnNl source.data) with
  | some lines => .ok ⟨joinNl lines⟩
  | none => .error "template missing package declaration"

/-- The effectful filesystem operations of a generation run, in
execution order. -/
inductive FsWrite where
  | removeAll (path : String)
  | mkdir (path : String)
  | writeFile (path : String) (content : String)
deriving DecidableEq, Repr

/-- The filesystem and toolchain collaborators of approutegen Run,
supplied as lookups: template source reads, types.go source summaries,
resolver.go existence, the live-selector regular-expression extraction
over the page template source, and go/format. -/
structure GenFS where
  templSource : String → Option String
  typesFile : String → Option goTypesFile
  resolverExists : String → Bool
  liveSelectorOf : String → Except String String
  gofmt : String → Except String String

/-- approutegen writeTemplCopy: read the template, rewrite its package
declaration, and write it into the module output directory. -/
def writeTemplCopy (fs : GenFS) (tpl : templateDef) : Except String (List FsWrite) :=
  match fs.templSource tpl.SourcePath with
  | none => .error ("read " ++ goQuote tpl.SourcePath)
  | some source =>
    match rewritePackageDeclaration source tpl.Package with
    | .error e => .error ("rewrite package for " ++ goQuote tpl.SourcePath ++ ": " ++ e)
    | .ok rewritten =>
      .ok [.mkdir tpl.OutputDir, .writeFile (tpl.OutputDir ++ "/" ++ tpl.OutputFile) rewritten]

/-- approutegen ensureRouteResolverStub: write the stub only when no
hand-written resolver.go exists. -/
def ensureRouteResolverStub (fs : GenFS) (meta : routeMeta) :
    Except String (List FsWrite) :=
  let resolverPath := meta.ResolverDir ++ "/" ++ "resolver.go"
  if fs.resolverExists resolverPath then .ok []
  else (generateRouteResolverStubSource fs.gofmt meta).map
    (fun src => [.writeFile resolverPath src])

/-- The template-copy loop of Run, accumulating writes until the first
error. -/
def copyLoop (fs : GenFS) : List templateDef → List FsWrite →
    List FsWrite × Option String
  | [], ws => (ws, none)
  | tpl :: rest, ws =>
    match writeTemplCopy fs tpl with
    | .error e => (ws, some e)
    | .ok w => copyLoop fs rest (ws ++ w)

/-- The resolver-stub loop of Run: create each resolver directory and
ensure its stub. -/
def stubLoop (fs : GenFS) : List routeMeta → List FsWrite →
    List FsWrite × Option String
  | [], ws => (ws, none)
  | meta :: rest, ws =>
    let ws := ws ++ [.mkdir meta.ResolverDir]
    match ensureRouteResolverStub fs meta with
    | .error e => (ws, some e)
    | .ok w => stubLoop fs rest (ws ++ w)

/-- approutegen resolvePaths, relative to the module root found by
findModuleRoot. -/
def genPaths (moduleRoot : String) : generationPaths :=
  { AppRoot := moduleRoot ++ "/internal/web/app"
    GenRoot := moduleRoot ++ "/internal/web/gen"
    GenImportRoot := "internal/web/gen"
    ResolverRoot := moduleRoot ++ "/internal/web/appcore/resolvers"
    ResolverImportRoot := "internal/web/appcore/resolvers" }

/-- approutegen Run, for an app tree with no shared components directory
(discoverSharedComponents then contributes nothing): discovery, meta
construction, then the destructive output phase — clear and recreate the
output root, copy templates, write contracts_gen.go and registry_gen.go,
ensure resolver stubs, write resolvers_gen.go. The first component of
the result is the filesystem writes performed before the run stopped;
the second is the error, if any. -/
def genRun (fs : GenFS) (moduleRoot : String) (relPaths : List String) :
    List FsWrite × Option String :=
  let paths := genPaths moduleRoot
  match discoverRouteFiles relPaths paths.AppRoot paths.GenRoot with
  | .error e => ([], some e)
  | .ok routes =>
    if routes.Pages = [] then ([], some "no page.templ files found in internal/web/app")
    else
      match buildRouteMetas routes.Pages paths fs.typesFile fs.liveSelectorOf with
      | .error e => ([], some e)
      | .ok metas =>
        let ws : List FsWrite := [.removeAll paths.GenRoot, .mkdir paths.GenRoot]
        match copyLoop fs routes.Templates ws with
        | (ws, some e) => (ws, some e)
        | (ws, none) =>
          match generateContractsSource fs.gofmt metas with
          | .error e => (ws, some e)
          | .ok contractsSource =>
            let ws := ws ++ [.writeFile (paths.GenRoot ++ "/contracts_gen.go") contractsSource]
            match generateRegistrySource fs.gofmt paths metas routes.Layouts with
            | .error e => (ws, some e)
            | .ok registrySource =>
              let ws := ws ++ [.writeFile (paths.GenRoot ++ "/registry_gen.go") registrySource]
              match stubLoop fs metas ws with
              | (ws, some e) => (ws, some e)
              | (ws, none) =>
                match generateResolversSource fs.gofmt metas with
                | .error e => (ws, some e)
                | .ok resolversSource =>
                  (ws ++ [.writeFile (paths.GenRoot ++ "/resolvers_gen.go") resolversSource],
                    none)

end Gen

namespace Engine

open Fw

theorem getLast?_cons_ne {α : Type} (a : α) (l : List α) (h : l ≠ []) :
    (a :: l).getLast? = l.getLast? := by
  cases l with
  | nil => exact absurd rfl h
  | cons b t => exact List.getLast?_cons_cons

theorem tryLoop_phase {C T : Type} (f : RouteHandler C T → Bool × List (Ev T))
    (ph : Phase) :
    ∀ (hs : List (RouteHandler C T)) (i : Nat),
      ∀ p ∈ (tryLoop f ph hs i).2, p.phase = ph := by
  intro hs
  induction hs with
  | nil => intro i p hp; simp [tryLoop] at hp
  | cons h rest ih =>
    intro i p hp
    simp only [tryLoop] at hp
    by_cases hb : (f h).1
    · simp [hb] at hp
      simp [hp]
    · simp [hb] at hp
      rcases hp with hp | hp
      · simp [hp]
      · exact ih (i + 1) p hp

theorem tryLoop_indexes {C T : Type} (f : RouteHandler C T → Bool × List (Ev T))
    (ph : Phase) :
    ∀ (hs : List (RouteHandler C T)) (i : Nat),
      (tryLoop f ph hs i).2.map (·.index) =
        List.range' i (tryLoop f ph hs i).2.length := by
  intro hs
  induction hs with
  | nil => intro i; simp [tryLoop]
  | cons h rest ih =>
    intro i
    simp only [tryLoop]
    by_cases hb : (f h).1
    · simp [hb, List.range']
    · simp only [hb, Bool.false_eq_true, if_false, List.map_cons, List.length_cons]
      rw [List.range'_succ]
      simp [ih (i + 1)]

theorem tryLoop_none {C T : Type} (f : RouteHandler C T → Bool × List (Ev T))
    (ph : Phase) :
    ∀ (hs : List (RouteHandler C T)) (i : Nat),
      (tryLoop f ph hs i).1 = none →
        (∀ h ∈ hs, (f h).1 = false) ∧
        (tryLoop f ph hs i).2.length = hs.length := by
  intro hs
  induction hs with
  | nil => intro i _; simp [tryLoop]
  | cons h rest ih =>
    intro i hnone
    simp only [tryLoop] at hnone ⊢
    by_cases hb : (f h).1
    · simp [hb] at hnone
    · simp only [hb, if_false] at hnone ⊢
      rcases ih (i + 1) hnone with ⟨hall, hlen⟩
      refine ⟨?_, by simp [hlen]⟩
      intro h' hh'
      rcases List.mem_cons.mp hh' with rfl | hh'
      · simpa using hb
      · exact hall h' hh'

theorem tryLoop_found {C T : Type} (f : RouteHandler C T → Bool × List (Ev T))
    (ph : Phase) :
    ∀ (hs : List (RouteHandler C T)) (i : Nat) (j : Nat) (hj : j < hs.length),
      (f (hs.get ⟨j, hj⟩)).1 = true →
      ∃ k, ∃ hk : k < hs.length, k ≤ j ∧ (f (hs.get ⟨k, hk⟩)).1 = true ∧
        (∀ k' (hk' : k' < k), (f (hs.get ⟨k', lt_trans hk' hk⟩)).1 = false) ∧
        (tryLoop f ph hs i).1 = some (i + k) ∧
        (tryLoop f ph hs i).2.length = k + 1 ∧
        (tryLoop f ph hs i).2.getLast? =
          some ⟨ph, i + k, (f (hs.get ⟨k, hk⟩)).2, true⟩ := by
  intro hs
  induction hs with
  | nil => intro i j hj; exact absurd hj (by simp)
  | cons h rest ih =>
    intro i j hj hserve
    by_cases hb : (f h).1
    · refine ⟨0, by simp, Nat.zero_le _, by simpa using hb, ?_, ?_, ?_, ?_⟩
      · intro k' hk'; omega
      · simp [tryLoop, hb]
      · simp [tryLoop, hb]
      · simp [tryLoop, hb]
    · match j, hj with
      | 0, hj => exact absurd hserve (by simpa using hb)
      | j' + 1, hj =>
        have hj' : j' < rest.length := by simpa using hj
        have hserve' : (f (rest.get ⟨j', hj'⟩)).1 = true := by simpa using hserve
        rcases ih (i + 1) j' hj' hserve' with
          ⟨k, hk, hkj, hktrue, hkmin, hfound, hlen, hlast⟩
        refine ⟨k + 1, by simpa using Nat.succ_lt_succ hk, Nat.succ_le_succ hkj,
          by simpa using hktrue, ?_, ?_, ?_, ?_⟩
        · intro k' hk'
          match k', hk' with
          | 0, _ => simpa using hb
          | k'' + 1, hk' =>
            have := hkmin k'' (by omega)
            simpa using this
        · simp only [tryLoop, hb, Bool.false_eq_true, if_false]
          rw [hfound]
          congr 1
          omega
        · simp only [tryLoop, hb, Bool.false_eq_true, if_false, List.length_cons]
          omega
        · simp only [tryLoop, hb, Bool.false_eq_true, if_false]
          have hne : (tryLoop f ph rest (i + 1)).2 ≠ [] := by
            intro hnil
            rw [hnil] at hlen
            simp at hlen
          rw [getLast?_cons_ne _ _ hne, hlast]
          congr 2
          omega

theorem tryLoop_unserved_events {C T : Type} (f : RouteHandler C T → Bool × List (Ev T))
    (ph : Phase) (hf : ∀ h, (f h).1 = false → (f h).2 = []) :
    ∀ (hs : List (RouteHandler C T)) (i : Nat),
      ∀ p ∈ (tryLoop f ph hs i).2, p.served = false → p.events = [] := by
  intro hs
  induction hs with
  | nil => intro i p hp; simp [tryLoop] at hp
  | cons h rest ih =>
    intro i p hp hns
    simp only [tryLoop] at hp
    by_cases hb : (f h).1
    · simp [hb] at hp
      rw [hp] at hns
      simp at hns
    · simp [hb] at hp
      rcases hp with hp | hp
      · rw [hp]; exact hf h (by simpa using hb)
      · exact ih (i + 1) p hp hns

end Engine

namespace Fw

theorem tryServeLive_false_events {C T : Type} (h : RouteHandler C T)
    (rt : Runtime C T) (r : Request) (hfalse : (h.tryServeLive rt r).1 = false) :
    (h.tryServeLive rt r).2 = [] := by
  cases h with
  | pageOnly page => rfl
  | pageAndLive page live =>
    simp only [RouteHandler.tryServeLive, serveLiveModule] at hfalse ⊢
    rcases hp : live.ParseParams r.path with _ | params
    · simp [hp]
    · exfalso
      simp only [hp] at hfalse
      rcases hst : live.ParseState r with e | state <;> simp only [hst] at hfalse
      · simp at hfalse
      · rcases hld : live.Load rt.appContext r params state with e | view <;>
          simp only [hld] at hfalse
        · simp at hfalse
        · rcases hpt : rt.patchLiveResult r live.SelectorID (live.Render view) with e | u <;>
            simp only [hpt] at hfalse <;> simp at hfalse

theorem tryServePage_false_events {C T : Type} (h : RouteHandler C T)
    (rt : Runtime C T) (r : Request) (hfalse : (h.tryServePage rt r).1 = false) :
    (h.tryServePage rt r).2 = [] := by
  have hgen : ∀ (P VM : Type) (m : PageModule C P VM T),
      (servePageModule rt r m).1 = false → (servePageModule rt r m).2 = [] := by
    intro P VM m hf
    simp only [servePageModule] at hf ⊢
    rcases hp : m.ParseParams r.path with _ | params
    · simp [hp]
    · exfalso
      simp only [hp] at hf
      rcases hld : m.Load rt.appContext r params with e | view <;> simp only [hld] at hf
      · simp at hf
      · rcases hrd : rt.renderPageResult r
            (applyLayouts m.Layouts view (m.Render view)) with e | u <;>
          simp only [hrd] at hf <;> simp at hf
  cases h with
  | pageOnly page => exact hgen _ _ page hfalse
  | pageAndLive page live => exact hgen _ _ page hfalse

end Fw

namespace Engine

open Fw

theorem liveLoop_eq {C T : Type} (rt : Runtime C T) (r : Request) :
    liveLoop rt r = tryLoop (fun h => h.tryServeLive rt r) Phase.live := rfl

theorem pageLoop_eq {C T : Type} (rt : Runtime C T) (r : Request) :
    pageLoop rt r = tryLoop (fun h => h.tryServePage rt r) Phase.page := rfl

theorem serveRoute_phase_split {C T : Type} (hs : List (RouteHandler C T))
    (rt : Runtime C T) (r : Request) :
    ∃ lp pp, (serveRoute hs rt r).2 = lp ++ pp ∧
      (∀ p ∈ lp, p.phase = Phase.live) ∧
      (∀ p ∈ pp, p.phase = Phase.page) ∧
      lp.map (·.index) = List.range lp.length ∧
      pp.map (·.index) = List.range pp.length ∧
      (pp ≠ [] → lp.length = hs.length) := by
  unfold serveRoute
  rw [liveLoop_eq, pageLoop_eq]
  rcases hlp : tryLoop (fun h => h.tryServeLive rt r) Phase.live hs 0 with ⟨found, probes⟩
  have hprobes2 : (tryLoop (fun h => h.tryServeLive rt r) Phase.live hs 0).2 = probes := by
    rw [hlp]
  have hphase : ∀ p ∈ probes, p.phase = Phase.live := by
    rw [← hprobes2]
    exact tryLoop_phase _ _ hs 0
  have hidx : probes.map (·.index) = List.range probes.length := by
    rw [← hprobes2, tryLoop_indexes, List.range_eq_range', hprobes2]
  cases found with
  | some k =>
    exact ⟨probes, [], by simp, hphase, by simp, hidx, by simp, by simp⟩
  | none =>
    have hlen : probes.length = hs.length := by
      have hfst : (tryLoop (fun h => h.tryServeLive rt r) Phase.live hs 0).1 = none := by
        rw [hlp]

      have := (tryLoop_none (fun h => h.tryServeLive rt r) Phase.live hs 0 hfst).2
      rw [hprobes2] at this
      rw [this]
    rcases hpp : tryLoop (fun h => h.tryServePage rt r) Phase.page hs 0 with ⟨found₂, probes₂⟩
    have hprobes₂ : (tryLoop (fun h => h.tryServePage rt r) Phase.page hs 0).2 = probes₂ := by
      rw [hpp]
    have hphase₂ : ∀ p ∈ probes₂, p.phase = Phase.page := by
      rw [← hprobes₂]
      exact tryLoop_phase _ _ hs 0
    have hidx₂ : probes₂.map (·.index) = List.range probes₂.length := by
      rw [← hprobes₂, tryLoop_indexes, List.range_eq_range', hprobes₂]
    cases found₂ with
    | some k₂ => exact ⟨probes, probes₂, by simp, hphase, hphase₂, hidx, hidx₂, fun _ => hlen⟩
    | none => exact ⟨probes, probes₂, by simp, hphase, hphase₂, hidx, hidx₂, fun _ => hlen⟩

theorem serveRoute_of_live_serving {C T : Type} (hs : List (RouteHandler C T))
    (rt : Runtime C T) (r : Request) (i : Nat) (hi : i < hs.length)
    (hlive : ((hs.get ⟨i, hi⟩).tryServeLive rt r).1 = true) :
    ∃ j, ∃ hj : j < hs.length, j ≤ i ∧
      ((hs.get ⟨j, hj⟩).tryServeLive rt r).1 = true ∧
      (∀ j' (hj' : j' < j), ((hs.get ⟨j', lt_trans hj' hj⟩).tryServeLive rt r).1 = false) ∧
      serveRoute hs rt r =
        (true, (tryLoop (fun h => h.tryServeLive rt r) Phase.live hs 0).2) ∧
      (serveRoute hs rt r).2.length = j + 1 ∧
      (serveRoute hs rt r).2.getLast? =
        some ⟨Phase.live, j, ((hs.get ⟨j, hj⟩).tryServeLive rt r).2, true⟩ := by
  rcases tryLoop_found (fun h => h.tryServeLive rt r) Phase.live hs 0 i hi hlive with
    ⟨k, hk, hki, htrue, hmin, hfound, hlen, hlast⟩
  have hserve : serveRoute hs rt r =
      (true, (tryLoop (fun h => h.tryServeLive rt r) Phase.live hs 0).2) := by
    unfold serveRoute
    rw [liveLoop_eq]
    rcases hpair : tryLoop (fun h => h.tryServeLive rt r) Phase.live hs 0 with ⟨found, probes⟩
    have : found = some (0 + k) := by
      have := hfound
      rw [hpair] at this
      exact this
    subst this
    simp
  refine ⟨k, hk, hki, htrue, hmin, hserve, ?_, ?_⟩
  · rw [hserve]
    simpa using hlen
  · rw [hserve]
    simpa using hlast

end Engine

/-- C1: for every dispatch engine (handler list plus callbacks) and
every request, ServeRoute invokes every handler's try-serve-live
capability, in registration order, before any handler's try-serve-page
capability, and returns at the first handler that reports served; hence
when any handler's live capability serves the request — even the i-th —
the engine answer is that of the first live-serving handler, every probe
made is a live probe covering handlers 0..j in order, and no page
capability (of any handler, matching or not) is ever invoked. -/
theorem c1_serveRoute_live_first {C T : Type} (hs : List (Fw.RouteHandler C T))
    (rt : Fw.Runtime C T) (r : Fw.Request) (i : Nat) (hi : i < hs.length)
    (hlive : ((hs.get ⟨i, hi⟩).tryServeLive rt r).1 = true) :
    (∀ (hs' : List (Fw.RouteHandler C T)) (rt' : Fw.Runtime C T) (r' : Fw.Request),
      ∃ lp pp, (Engine.serveRoute hs' rt' r').2 = lp ++ pp ∧
        (∀ p ∈ lp, p.phase = Engine.Phase.live) ∧
        (∀ p ∈ pp, p.phase = Engine.Phase.page) ∧
        lp.map (·.index) = List.range lp.length ∧
        pp.map (·.index) = List.range pp.length ∧
        (pp ≠ [] → lp.length = hs'.length)) ∧
    (Engine.serveRoute hs rt r).1 = true ∧
    (∀ p ∈ (Engine.serveRoute hs rt r).2, p.phase = Engine.Phase.live) ∧
    ∃ j, ∃ hj : j < hs.length, j ≤ i ∧
      ((hs.get ⟨j, hj⟩).tryServeLive rt r).1 = true ∧
      (∀ j' (hj' : j' < j), ((hs.get ⟨j', lt_trans hj' hj⟩).tryServeLive rt r).1 = false) ∧
      (Engine.serveRoute hs rt r).2.getLast? =
        some ⟨Engine.Phase.live, j, ((hs.get ⟨j, hj⟩).tryServeLive rt r).2, true⟩ := by
  refine ⟨Engine.serveRoute_phase_split, ?_⟩
  rcases Engine.serveRoute_of_live_serving hs rt r i hi hlive with
    ⟨j, hj, hji, htrue, hmin, hserve, hlen, hlast⟩
  refine ⟨by rw [hserve], ?_, j, hj, hji, htrue, hmin, hlast⟩
  intro p hp
  rw [hserve] at hp
  exact Engine.tryLoop_phase _ _ hs 0 p hp

/-- Fixture for the C1 witness: a page module whose pattern matches the
request path /x. -/
def c1wPage : Fw.PageModule Unit Unit String String :=
  { Pattern := "/x"
    ParseParams := fun p => if p = "/x" then some () else none
    Load := fun _ _ _ => .ok "page"
    Render := fun v => v
    Layouts := [] }

/-- Fixture for the C1 witness: a live module whose pattern also matches
the request path /x. -/
def c1wLive : Fw.LiveModule Unit Unit String Unit String :=
  { Pattern := "/x/live"
    ParseParams := fun p => if p = "/x" then some () else none
    ParseState := fun _ => .ok ()
    Load := fun _ _ _ _ => .ok "live"
    Render := fun v => v
    SelectorID := "sel"
    BadRequestMessage := "bad" }

/-- Fixture for the C1 witness: an earlier page-only handler whose page
pattern matches, followed by a live-capable handler. -/
def c1wHandlers : List (Fw.RouteHandler Unit String) :=
  [.pageOnly c1wPage, .pageAndLive c1wPage c1wLive]

/-- Fixture runtime for the dispatch witnesses. -/
def c1wRt : Fw.Runtime Unit String :=
  { appContext := ()
    renderPageResult := fun _ _ => .ok ()
    patchLiveResult := fun _ _ _ => .ok ()
    isNotFound := fun _ => false }

theorem c1_serveRoute_live_first_witness :
    (Engine.serveRoute c1wHandlers c1wRt ⟨"/x"⟩).1 = true ∧
    (∀ p ∈ (Engine.serveRoute c1wHandlers c1wRt ⟨"/x"⟩).2,
      p.phase = Engine.Phase.live) := by
  have h := c1_serveRoute_live_first c1wHandlers c1wRt ⟨"/x"⟩ 1 (by decide) (by rfl)
  exact ⟨h.2.1, h.2.2.1⟩

namespace Engine

open Fw

theorem tryLoop_mem_served {C T : Type} (f : RouteHandler C T → Bool × List (Ev T))
    (ph : Phase) :
    ∀ (hs : List (RouteHandler C T)) (i : Nat) (p : Probe T),
      p ∈ (tryLoop f ph hs i).2 → p.served = true →
      (tryLoop f ph hs i).2.getLast? = some p := by
  intro hs
  induction hs with
  | nil => intro i p hp; simp [tryLoop] at hp
  | cons h rest ih =>
    intro i p hp hserved
    simp only [tryLoop] at hp ⊢
    by_cases hb : (f h).1
    · simp [hb] at hp ⊢
      simp [hp]
    · simp only [hb, Bool.false_eq_true, if_false] at hp ⊢
      rcases List.mem_cons.mp hp with rfl | hp
      · simp at hserved
      · have hne : (tryLoop f ph rest (i + 1)).2 ≠ [] :=
          List.ne_nil_of_mem hp
        rw [getLast?_cons_ne _ _ hne]
        exact ih (i + 1) p hp hserved

theorem mem_index_lt_of_map_range {T : Type} (probes : List (Probe T)) (n : Nat)
    (hidx : probes.map (·.index) = List.range n) :
    ∀ p ∈ probes, p.index < n := by
  intro p hp
  have : p.index ∈ probes.map (·.index) := List.mem_map_of_mem _ hp
  rw [hidx] at this
  exact List.mem_range.mp this

end Engine

/-- C10: once a handler's parameter parser structurally matches the
request path, its try-serve operation returns true on every subsequent
branch — loader errors, state-parse errors and render/patch errors
included — so ServeRoute stops at (or before) that handler: a live
match ends the whole dispatch by that index, and a page match means no
page probe ever goes past it; a failing matched route responds through
the error callbacks rather than falling through to another route. -/
theorem c10_matched_handler_owns_request :
    ∀ (C T : Type),
    (∀ (P VM : Type) (rt : Fw.Runtime C T) (r : Fw.Request) (m : Fw.PageModule C P VM T),
      (m.ParseParams r.path).isSome → (Fw.servePageModule rt r m).1 = true) ∧
    (∀ (P VM S : Type) (rt : Fw.Runtime C T) (r : Fw.Request) (m : Fw.LiveModule C P VM S T),
      (m.ParseParams r.path).isSome → (Fw.serveLiveModule rt r m).1 = true) ∧
    (∀ (hs : List (Fw.RouteHandler C T)) (rt : Fw.Runtime C T) (r : Fw.Request)
        (i : Nat) (hi : i < hs.length),
      ((hs.get ⟨i, hi⟩).tryServeLive rt r).1 = true →
      ∀ p ∈ (Engine.serveRoute hs rt r).2, p.index ≤ i) ∧
    (∀ (hs : List (Fw.RouteHandler C T)) (rt : Fw.Runtime C T) (r : Fw.Request)
        (i : Nat) (hi : i < hs.length),
      ((hs.get ⟨i, hi⟩).tryServePage rt r).1 = true →
      ∀ p ∈ (Engine.serveRoute hs rt r).2, p.phase = Engine.Phase.page → p.index ≤ i) := by
  intro C T
  refine ⟨?_, ?_, ?_, ?_⟩
  · intro P VM rt r m hsome
    rcases hp : m.ParseParams r.path with _ | params
    · rw [hp] at hsome; simp at hsome
    · simp only [Fw.servePageModule, hp]
      rcases hld : m.Load rt.appContext r params with e | view
      · simp
      · rcases hrd : rt.renderPageResult r
            (Fw.applyLayouts m.Layouts view (m.Render view)) with e | u <;> simp [hrd]
  · intro P VM S rt r m hsome
    rcases hp : m.ParseParams r.path with _ | params
    · rw [hp] at hsome; simp at hsome
    · simp only [Fw.serveLiveModule, hp]
      rcases hst : m.ParseState r with e | state
      · simp [hst]
      · rcases hld : m.Load rt.appContext r params state with e | view
        · simp [hst, hld]
        · rcases hpt : rt.patchLiveResult r m.SelectorID (m.Render view) with e | u <;>
            simp [hst, hld, hpt]
  · intro hs rt r i hi hlive p hp
    rcases Engine.serveRoute_of_live_serving hs rt r i hi hlive with
      ⟨j, hj, hji, _, _, hserve, hlen, _⟩
    rw [hserve] at hp hlen
    have hidx := Engine.tryLoop_indexes (fun h => h.tryServeLive rt r) Engine.Phase.live hs 0
    simp only [hlen] at hidx
    rw [← List.range_eq_range'] at hidx
    have := Engine.mem_index_lt_of_map_range _ _ hidx p (by simpa using hp)
    omega
  · intro hs rt r i hi hpage p hp hphase
    revert hp
    unfold Engine.serveRoute
    rw [Engine.liveLoop_eq, Engine.pageLoop_eq]
    rcases hlp : Engine.tryLoop (fun h => h.tryServeLive rt r) Engine.Phase.live hs 0 with
      ⟨found, probes⟩
    cases found with
    | some k =>
      intro hp
      simp only at hp
      have : p.phase = Engine.Phase.live := by
        have := Engine.tryLoop_phase (fun h => h.tryServeLive rt r) Engine.Phase.live hs 0
        rw [hlp] at this
        exact this p hp
      rw [hphase] at this
      cases this
    | none =>
      rcases Engine.tryLoop_found (fun h => h.tryServePage rt r) Engine.Phase.page hs 0 i hi
        hpage with ⟨k, hk, hki, _, _, hfound, hlen₂, _⟩
      rcases hpp : Engine.tryLoop (fun h => h.tryServePage rt r) Engine.Phase.page hs 0 with
        ⟨found₂, probes₂⟩
      intro hp
      simp only at hp
      have hmem : p ∈ probes ++ probes₂ := by
        cases found₂ with
        | some k₂ => simpa using hp
        | none => simpa using hp
      rcases List.mem_append.mp hmem with hmem | hmem
      · have : p.phase = Engine.Phase.live := by
          have := Engine.tryLoop_phase (fun h => h.tryServeLive rt r) Engine.Phase.live hs 0
          rw [hlp] at this
          exact this p hmem
        rw [hphase] at this
        cases this
      · have hidx := Engine.tryLoop_indexes (fun h => h.tryServePage rt r) Engine.Phase.page hs 0
        rw [hpp] at hidx hlen₂
        simp only at hidx hlen₂
        rw [hlen₂, ← List.range_eq_range'] at hidx
        have := Engine.mem_index_lt_of_map_range _ _ hidx p hmem
        omega

/-- Fixture for the C10 witness: a page module that matches /y but whose
loader fails with an error the runtime does not classify as
not-found. -/
def c10wPage : Fw.PageModule Unit Unit String String :=
  { Pattern := "/y"
    ParseParams := fun p => if p = "/y" then some () else none
    Load := fun _ _ _ => .error "boom"
    Render := fun v => v
    Layouts := [] }

theorem c10_matched_handler_owns_request_witness :
    (Fw.servePageModule c1wRt ⟨"/y"⟩ c10wPage).1 = true ∧
    (∀ p ∈ (Engine.serveRoute [Fw.RouteHandler.pageOnly c10wPage] c1wRt ⟨"/y"⟩).2,
      p.phase = Engine.Phase.page → p.index ≤ 0) := by
  refine ⟨(c10_matched_handler_owns_request Unit String).1 Unit String c1wRt ⟨"/y"⟩
    c10wPage (by rfl), ?_⟩
  exact (c10_matched_handler_owns_request Unit String).2.2.2
    [Fw.RouteHandler.pageOnly c10wPage] c1wRt ⟨"/y"⟩ 0 (by decide) (by rfl)

/-- C6 (amended): when the first live-serving handler's pattern matches
the request and its state parser fails, the engine serves the request
with a bad-request response whose message is the module's configured
bad-request message after whitespace trimming (with the fixed fallback
when the trimmed message is blank) — in particular exactly the
configured message whenever that message is nonempty and carries no
surrounding whitespace, as every generated module's does — and neither
the live loader nor any page loader is invoked for the request. -/
theorem c6_state_parse_failure_bad_request {C T P VM S : Type}
    (hs : List (Fw.RouteHandler C T)) (rt : Fw.Runtime C T) (r : Fw.Request)
    (i : Nat) (hi : i < hs.length)
    (pm : Fw.PageModule C P VM T) (lm : Fw.LiveModule C P VM S T)
    (hhandler : hs.get ⟨i, hi⟩ = .pageAndLive pm lm)
    (params : P) (hparse : lm.ParseParams r.path = some params)
    (e : String) (hstate : lm.ParseState r = .error e)
    (hfirst : ∀ j (hj : j < i), ((hs.get ⟨j, lt_trans hj hi⟩).tryServeLive rt r).1 = false) :
    (Engine.serveRoute hs rt r).1 = true ∧
    (Engine.serveRoute hs rt r).2.getLast? = some ⟨Engine.Phase.live, i,
      [Fw.Ev.stateParse,
       Fw.Ev.respondBadRequest (Fw.effectiveBadRequestMessage lm.BadRequestMessage)], true⟩ ∧
    (∀ p ∈ (Engine.serveRoute hs rt r).2,
      Fw.Ev.liveLoad ∉ p.events ∧ Fw.Ev.pageLoad ∉ p.events ∧
        p.phase = Engine.Phase.live) ∧
    (GoStr.goTrimSpace lm.BadRequestMessage = lm.BadRequestMessage →
      lm.BadRequestMessage ≠ "" →
      Fw.effectiveBadRequestMessage lm.BadRequestMessage = lm.BadRequestMessage) := by
  have htry : (hs.get ⟨i, hi⟩).tryServeLive rt r =
      (true, [Fw.Ev.stateParse,
        Fw.Ev.respondBadRequest (Fw.effectiveBadRequestMessage lm.BadRequestMessage)]) := by
    rw [hhandler]
    simp [Fw.RouteHandler.tryServeLive, Fw.serveLiveModule, hparse, hstate]
  have hlive : ((hs.get ⟨i, hi⟩).tryServeLive rt r).1 = true := by rw [htry]
  rcases Engine.serveRoute_of_live_serving hs rt r i hi hlive with
    ⟨j, hj, hji, htrue, hmin, hserve, hlen, hlast⟩
  have hij : j = i := by
    rcases Nat.lt_or_ge j i with hlt | hge
    · have hfalse : ((hs.get ⟨j, hj⟩).tryServeLive rt r).1 = false := hfirst j hlt
      rw [htrue] at hfalse
      cases hfalse
    · omega
  subst hij
  have hjhi : hj = hi := rfl
  refine ⟨by rw [hserve], ?_, ?_, ?_⟩
  · rw [hlast, htry]
  · intro p hp
    by_cases hsv : p.served = true
    · have hgl := Engine.tryLoop_mem_served (fun h => h.tryServeLive rt r)
        Engine.Phase.live hs 0 p (by rw [hserve] at hp; simpa using hp) hsv
      have hpe : p = ⟨Engine.Phase.live, j, ((hs.get ⟨j, hj⟩).tryServeLive rt r).2, true⟩ := by
        have hlast' := hlast
        rw [hserve] at hlast'
        simp only at hlast'
        exact Option.some.inj (hgl.symm.trans hlast')
      rw [hpe, htry]
      refine ⟨by simp, by simp, rfl⟩
    · have hev : p.events = [] := by
        refine Engine.tryLoop_unserved_events (fun h => h.tryServeLive rt r)
          Engine.Phase.live (fun h hf => Fw.tryServeLive_false_events h rt r hf) hs 0 p
          ?_ (by simpa using hsv)
        rw [hserve] at hp
        simpa using hp
      have hph : p.phase = Engine.Phase.live := by
        refine Engine.tryLoop_phase (fun h => h.tryServeLive rt r) Engine.Phase.live hs 0 p ?_
        rw [hserve] at hp
        simpa using hp
      simp [hev, hph]
  · intro htrim hne
    unfold Fw.effectiveBadRequestMessage
    rw [htrim]
    simp [hne]

/-- Fixture for the C6 witness: a live module on /z whose state parser
always fails and whose configured message is trimmed and nonempty. -/
def c6wLive : Fw.LiveModule Unit Unit String Unit String :=
  { Pattern := "/z/live"
    ParseParams := fun p => if p = "/z" then some () else none
    ParseState := fun _ => .error "invalid"
    Load := fun _ _ _ _ => .ok "live"
    Render := fun v => v
    SelectorID := "sel"
    BadRequestMessage := "bad payload" }

/-- Fixture page module for the C6 witness handler. -/
def c6wPage : Fw.PageModule Unit Unit String String :=
  { Pattern := "/z"
    ParseParams := fun p => if p = "/z" then some () else none
    Load := fun _ _ _ => .ok "page"
    Render := fun v => v
    Layouts := [] }

theorem c6_state_parse_failure_bad_request_witness :
    (Engine.serveRoute [Fw.RouteHandler.pageAndLive c6wPage c6wLive] c1wRt ⟨"/z"⟩).1 = true ∧
    (Engine.serveRoute [Fw.RouteHandler.pageAndLive c6wPage c6wLive] c1wRt ⟨"/z"⟩).2.getLast? =
      some ⟨Engine.Phase.live, 0,
        [Fw.Ev.stateParse, Fw.Ev.respondBadRequest "bad payload"], true⟩ := by
  have h := c6_state_parse_failure_bad_request
    [Fw.RouteHandler.pageAndLive c6wPage c6wLive] c1wRt ⟨"/z"⟩ 0 (by decide)
    c6wPage c6wLive (by rfl) () (by rfl) "invalid" (by rfl)
    (fun j hj => absurd hj (by omega))
  refine ⟨h.1, ?_⟩
  have := h.2.1
  simpa [Fw.effectiveBadRequestMessage, GoStr.goTrimSpace, GoStr.goTrimL] using this

/-- Fixture for the C6 counterexample: the same live module but with a
configured bad-request message carrying surrounding whitespace. -/
def c6cLive : Fw.LiveModule Unit Unit String Unit String :=
  { Pattern := "/z/live"
    ParseParams := fun p => if p = "/z" then some () else none
    ParseState := fun _ => .error "invalid"
    Load := fun _ _ _ _ => .ok "live"
    Render := fun v => v
    SelectorID := "sel"
    BadRequestMessage := " x " }

/-- C6 counterexample: a live-capable route whose pattern matches the
request and whose state parser fails responds bad-request with the
trimmed message "x", not with the module's configured message " x " —
so the response does not carry exactly the configured message. -/
theorem c6_state_parse_failure_bad_request_counterexample :
    Fw.serveLiveModule c1wRt ⟨"/z"⟩ c6cLive =
      (true, [Fw.Ev.stateParse, Fw.Ev.respondBadRequest "x"]) ∧
    c6cLive.BadRequestMessage = " x " ∧
    "x" ≠ " x " := by
  refine ⟨?_, rfl, by decide⟩
  rfl

/-- Fixture for C7: a page module on /notes whose loader reports the
domain not-found error. -/
def c7Page : Fw.PageModule Unit Unit String String :=
  { Pattern := "/notes"
    ParseParams := fun p => if p = "/notes" then some () else none
    Load := fun _ _ _ => .error "not found"
    Render := fun v => v
    Layouts := [] }

/-- Fixture for C7: the same module with a loader error the predicate
does not classify as not-found. -/
def c7PageBoom : Fw.PageModule Unit Unit String String :=
  { Pattern := "/notes"
    ParseParams := fun p => if p = "/notes" then some () else none
    Load := fun _ _ _ => .error "boom"
    Render := fun v => v
    Layouts := [] }

/-- Fixture runtime for C7 with the injected not-found classifier. -/
def c7Rt : Fw.Runtime Unit String :=
  { appContext := ()
    renderPageResult := fun _ _ => .ok ()
    patchLiveResult := fun _ _ _ => .ok ()
    isNotFound := fun e => e = "not found" }

/-- Fixture part_016-variant runtime for C7. -/
def c7Rt16 : Fw16.Runtime Unit String :=
  { appContext := ()
    isPartialReq := fun _ => false
    renderPageResult := fun _ _ => .ok ()
    isNotFound := fun e => e = "not found" }

/-- C7: evaluation of the cited implementations at the claim's inputs.
The part_016 handleLoadError produces the 404 whose not-found context
records the request path, the matched pattern and the page_load source
tag, and the httpserver unmatched branch produces the 404 context with
the unmatched_route tag and an empty matched pattern, while any
non-not-found loader error produces a server-error response — but the
handleLoadError of the current framework/contracts.go responds
not-found with no context at all at the very same input, contradicting
the engine and httpserver tests that pin the context fields. -/
theorem c7_not_found_context_evaluation :
    Fw16.servePageModule c7Rt16 ⟨"/notes"⟩ c7Page =
      (true, [Fw16.Ev.pageLoad,
        Fw16.Ev.respondNotFound ⟨"/notes", "/notes", Fw.notFoundSourcePageLoad⟩]) ∧
    Httpserver.serverHandleRoute "/healthz" [Fw.RouteHandler.pageOnly c7Page] c7Rt
        ⟨"/missing"⟩ =
      [Httpserver.ServerEv.engine
        [⟨Engine.Phase.live, 0, [], false⟩, ⟨Engine.Phase.page, 0, [], false⟩],
       Httpserver.ServerEv.notFoundCtx ⟨"/missing", "", Fw.notFoundSourceUnmatchedRoute⟩] ∧
    Fw16.servePageModule c7Rt16 ⟨"/notes"⟩ c7PageBoom =
      (true, [Fw16.Ev.pageLoad,
        Fw16.Ev.respondServerError "load route \"/notes\": boom"]) ∧
    Fw.servePageModule c7Rt ⟨"/notes"⟩ c7PageBoom =
      (true, [Fw.Ev.pageLoad,
        Fw.Ev.respondServerError "load route \"/notes\": boom"]) ∧
    Fw.servePageModule c7Rt ⟨"/notes"⟩ c7Page =
      (true, [Fw.Ev.pageLoad, Fw.Ev.respondNotFound]) := by
  refine ⟨rfl, rfl, rfl, rfl, rfl⟩

/-- A layout renderer over string components that wraps its child in
open/close markers, mirroring the engine tests' wrapComponent. -/
def wrapTag (tag : String) : String → String → String :=
  fun _ child => "[" ++ tag ++ "]" ++ child ++ "[/" ++ tag ++ "]"

/-- C5: on a successful page load the rendered body is wrapped by the
route's layout chain with the first layout outermost and the last
innermost (applyLayouts of an appended chain wraps the earlier part
around the later part, and concretely an outer/inner pair nests
outer-inner-body); the ordered chain emitted by the generator starts at
the root layout when one exists; and on a successful live load the
rendered fragment is patched directly, with no layout wrapper
applied. -/
theorem c5_layout_wrapping :
    (∀ (C P VM T : Type) (rt : Fw.Runtime C T) (r : Fw.Request)
        (m : Fw.PageModule C P VM T) (params : P) (view : VM),
      m.ParseParams r.path = some params →
      m.Load rt.appContext r params = .ok view →
      ∃ evs, Fw.servePageModule rt r m =
        (true, Fw.Ev.pageLoad ::
          Fw.Ev.renderPage (Fw.applyLayouts m.Layouts view (m.Render view)) :: evs)) ∧
    (∀ (VM T : Type) (l : VM → T → T) (ls : List (VM → T → T)) (v : VM) (c : T),
      Fw.applyLayouts (l :: ls) v c = l v (Fw.applyLayouts ls v c)) ∧
    (∀ (VM T : Type) (ls₁ ls₂ : List (VM → T → T)) (v : VM) (c : T),
      Fw.applyLayouts (ls₁ ++ ls₂) v c = Fw.applyLayouts ls₁ v (Fw.applyLayouts ls₂ v c)) ∧
    (Fw.applyLayouts [wrapTag "outer", wrapTag "inner"] "v" "body" =
      "[outer][inner]body[/inner][/outer]") ∧
    (∀ (routeID : String) (layouts : List (String × Gen.templateDef))
        (L : Gen.templateDef),
      Router.assocFind layouts "" = some L →
      ∃ rest, Gen.layoutChain routeID layouts = L :: rest) ∧
    (∀ (C P VM S T : Type) (rt : Fw.Runtime C T) (r : Fw.Request)
        (m : Fw.LiveModule C P VM S T) (params : P) (state : S) (view : VM),
      m.ParseParams r.path = some params →
      m.ParseState r = .ok state →
      m.Load rt.appContext r params state = .ok view →
      ∃ evs, Fw.serveLiveModule rt r m =
        (true, Fw.Ev.stateParse :: Fw.Ev.liveLoad ::
          Fw.Ev.patchLive m.SelectorID (m.Render view) :: evs)) := by
  refine ⟨?_, ?_, ?_, rfl, ?_, ?_⟩
  · intro C P VM T rt r m params view hp hld
    simp only [Fw.servePageModule, hp, hld]
    rcases hrd : rt.renderPageResult r
        (Fw.applyLayouts m.Layouts view (m.Render view)) with e | u
    · exact ⟨[Fw.Ev.respondServerError
        ("render route " ++ GoStr.goQuote m.Pattern ++ ": " ++ e)], rfl⟩
    · exact ⟨[], rfl⟩
  · intro VM T l ls v c
    rfl
  · intro VM T ls₁ ls₂ v c
    induction ls₁ with
    | nil => rfl
    | cons l ls ih => simp [Fw.applyLayouts, ih]
  · intro routeID layouts L hroot
    refine ⟨((if routeID = "" then []
        else (GoStr.splitOnSlash routeID.data).map (fun l => (⟨l⟩ : String))).length
          |> List.range).map
        (fun idx => String.intercalate "/"
          (((if routeID = "" then []
            else (GoStr.splitOnSlash routeID.data).map (fun l => (⟨l⟩ : String)))).take (idx + 1)))
        |>.filterMap (fun candidate => Router.assocFind layouts candidate), ?_⟩
    unfold Gen.layoutChain
    simp [hroot]
  · intro C P VM S T rt r m params state view hp hst hld
    simp only [Fw.serveLiveModule, hp, hst, hld]
    rcases hpt : rt.patchLiveResult r m.SelectorID (m.Render view) with e | u
    · exact ⟨[Fw.Ev.respondServerError
        ("patch route " ++ GoStr.goQuote m.Pattern ++ ": " ++ e)], rfl⟩
    · exact ⟨[], rfl⟩

/-- Fixture for the C5 witness: a page module with an outer and an inner
layout over string components. -/
def c5wPage : Fw.PageModule Unit Unit String String :=
  { Pattern := "/n"
    ParseParams := fun p => if p = "/n" then some () else none
    Load := fun _ _ _ => .ok "body"
    Render := fun v => v
    Layouts := [wrapTag "outer", wrapTag "inner"] }

/-- Fixture for the C5 witness: a live module rendering a bare fragment. -/
def c5wLive : Fw.LiveModule Unit Unit String Unit String :=
  { Pattern := "/n/live"
    ParseParams := fun p => if p = "/n/live" then some () else none
    ParseState := fun _ => .ok ()
    Load := fun _ _ _ _ => .ok "body"
    Render := fun v => v
    SelectorID := "n-content"
    BadRequestMessage := "bad" }

theorem c5_layout_wrapping_witness :
    (∃ evs, Fw.servePageModule c1wRt ⟨"/n"⟩ c5wPage =
      (true, Fw.Ev.pageLoad ::
        Fw.Ev.renderPage "[outer][inner]body[/inner][/outer]" :: evs)) ∧
    (∃ evs, Fw.serveLiveModule c1wRt ⟨"/n/live"⟩ c5wLive =
      (true, Fw.Ev.stateParse :: Fw.Ev.liveLoad ::
        Fw.Ev.patchLive "n-content" "body" :: evs)) := by
  constructor
  · have h := c5_layout_wrapping.1 Unit Unit String String c1wRt ⟨"/n"⟩ c5wPage () "body"
      (by rfl) (by rfl)
    simpa using h
  · have h := c5_layout_wrapping.2.2.2.2.2 Unit Unit String Unit String c1wRt ⟨"/n/live"⟩
      c5wLive () () "body" (by rfl) (by rfl) (by rfl)
    simpa using h

namespace Router

theorem routerMatch_go_spec (reqSegs : List String) :
    ∀ (routes : List appRoute) (m : AppRouteMatch),
      routerMatch.go routes reqSegs = some m →
      ∃ i, ∃ hi : i < routes.length,
        routeMatches (routes.get ⟨i, hi⟩) reqSegs = some m.Params ∧
        m.ID = (routes.get ⟨i, hi⟩).id ∧
        ∀ j (hj : j < i), routeMatches (routes.get ⟨j, lt_trans hj hi⟩) reqSegs = none := by
  intro routes
  induction routes with
  | nil => intro m hm; simp [routerMatch.go] at hm
  | cons route rest ih =>
    intro m hm
    simp only [routerMatch.go] at hm
    rcases hmt : routeMatches route reqSegs with _ | params
    · rw [hmt] at hm
      rcases ih m hm with ⟨i, hi, hmatch, hid, hbefore⟩
      refine ⟨i + 1, by simpa using Nat.succ_lt_succ hi, by simpa using hmatch,
        by simpa using hid, ?_⟩
      intro j hj
      match j, hj with
      | 0, _ => simpa using hmt
      | j' + 1, hj => simpa using hbefore j' (by omega)
    · rw [hmt] at hm
      refine ⟨0, by simp, ?_, ?_, ?_⟩
      · simp only [List.get]
        rw [hmt]
        cases hm
        rfl
      · cases hm; rfl
      · intro j hj; omega

end Router

/-- The route-template file tree of the router tests, as the lexical
fs.WalkDir file order. -/
def c2TestFiles : List String :=
  ["app/author/[slug]/layout.templ",
   "app/author/[slug]/live/page.templ",
   "app/author/[slug]/page.templ",
   "app/author/settings/page.templ",
   "app/layout.templ",
   "app/note/[slug]/page.templ",
   "app/notes/page.templ"]

/-- The specificity-sorted route list NewAppRouter produces for the test
tree. -/
def c2SortedRoutes : List Router.appRoute :=
  [{ id := "author/[slug]/live"
     segments := [⟨"author", false⟩, ⟨"slug", true⟩, ⟨"live", false⟩]
     staticCount := 2
     patternKey := "/author/:/live" },
   { id := "author/settings"
     segments := [⟨"author", false⟩, ⟨"settings", false⟩]
     staticCount := 2
     patternKey := "/author/settings" },
   { id := "author/[slug]"
     segments := [⟨"author", false⟩, ⟨"slug", true⟩]
     staticCount := 1
     patternKey := "/author/:" },
   { id := "note/[slug]"
     segments := [⟨"note", false⟩, ⟨"slug", true⟩]
     staticCount := 1
     patternKey := "/note/:" },
   { id := "notes"
     segments := [⟨"notes", false⟩]
     staticCount := 1
     patternKey := "/notes" }]

/-- C2: every successfully constructed router holds its routes sorted
most-specific first — descending static-segment count, then descending
segment count, then ascending RouteID (the routeLE order) — and Match
answers with the first route in that order that structurally matches;
consequently, in the tree holding both author/settings and
author/[slug], the request /author/settings matches the static route
while /author/nina matches author/[slug] capturing slug = nina. -/
theorem c2_most_specific_route_wins (files : List String) (root : String)
    (routes : List Router.appRoute)
    (h : Router.newAppRouter files root = .ok routes) :
    routes.Sorted Router.routeLE ∧
    (∀ path m, Router.routerMatch routes path = some m →
      ∃ i, ∃ hi : i < routes.length,
        Router.routeMatches (routes.get ⟨i, hi⟩) (Router.splitPathSegments path) =
          some m.Params ∧
        m.ID = (routes.get ⟨i, hi⟩).id ∧
        ∀ j (hj : j < i),
          Router.routeMatches (routes.get ⟨j, lt_trans hj hi⟩)
            (Router.splitPathSegments path) = none) ∧
    Router.newAppRouter c2TestFiles "app" = .ok c2SortedRoutes ∧
    Router.routerMatch c2SortedRoutes "/author/settings" =
      some ⟨"author/settings", []⟩ ∧
    Router.routerMatch c2SortedRoutes "/author/nina" =
      some ⟨"author/[slug]", [("slug", "nina")]⟩ := by
  refine ⟨?_, ?_, by rfl, by rfl, by rfl⟩
  · simp only [Router.newAppRouter] at h
    split at h
    · cases h
    · split at h
      · cases h
      · split at h
        · cases h
        · rw [Except.ok.injEq] at h
          rw [← h]
          exact List.sorted_insertionSort Router.routeLE _
  · intro path m hm
    exact Router.routerMatch_go_spec (Router.splitPathSegments path) routes m hm

theorem c2_most_specific_route_wins_witness :
    c2SortedRoutes.Sorted Router.routeLE ∧
    Router.routerMatch c2SortedRoutes "/author/settings" =
      some ⟨"author/settings", []⟩ := by
  have h := c2_most_specific_route_wins c2TestFiles "app" c2SortedRoutes (by rfl)
  exact ⟨h.1, h.2.2.2.1⟩

namespace Router

theorem assocFind_append_isSome {α β : Type} [DecidableEq α] :
    ∀ (l m : List (α × β)) (k : α), (assocFind l k).isSome →
      assocFind (l ++ m) k = assocFind l k := by
  intro l m k
  induction l with
  | nil => intro h; simp [assocFind] at h
  | cons p rest ih =>
    intro h
    rcases p with ⟨a, b⟩
    by_cases hak : a = k
    · simp [assocFind, hak]
    · simp only [assocFind, hak, if_false, List.cons_append] at h ⊢
      exact ih h

theorem assocFind_append_of_none {α β : Type} [DecidableEq α] :
    ∀ (l : List (α × β)) (k : α) (v : β), assocFind l k = none →
      assocFind (l ++ [(k, v)]) k = some v := by
  intro l k v
  induction l with
  | nil => intro _; simp [assocFind]
  | cons p rest ih =>
    intro h
    rcases p with ⟨a, b⟩
    by_cases hak : a = k
    · simp [assocFind, hak] at h
    · simp only [assocFind, hak, if_false, List.cons_append] at h ⊢
      exact ih h

open GoStr in
theorem walkLoop_nodup_patternKeys (root : String) :
    ∀ (files : List String) (routes : List appRoute) (seen : List (String × String))
      (out : List appRoute),
      walkLoop root files routes seen = .ok out →
      (∀ r ∈ routes, (assocFind seen r.patternKey).isSome) →
      (routes.map (·.patternKey)).Nodup →
      (out.map (·.patternKey)).Nodup := by
  intro files
  induction files with
  | nil =>
    intro routes seen out h hmem hnd
    simp only [walkLoop] at h
    cases h
    exact hnd
  | cons filePath rest ih =>
    intro routes seen out h hmem hnd
    simp only [walkLoop] at h
    by_cases hbase : goPathBase filePath ≠ "page.templ"
    · rw [if_pos hbase] at h
      exact ih routes seen out h hmem hnd
    · rw [if_neg hbase] at h
      by_cases hrel : goTrimPrefixStr filePath (root ++ "/") = filePath
      · rw [if_pos hrel] at h
        cases h
      · rw [if_neg hrel] at h
        rcases hparse : parseAppRoute (goTrimPrefixStr filePath (root ++ "/")) with e | route
        · rw [hparse] at h; cases h
        · simp only [hparse] at h
          rcases hseen : assocFind seen route.patternKey with _ | existing
          · simp only [hseen] at h
            refine ih (routes ++ [route]) (seen ++ [(route.patternKey, route.id)]) out h ?_ ?_
            · intro r hr
              rcases List.mem_append.mp hr with hr | hr
              · rw [assocFind_append_isSome seen _ _ (hmem r hr)]
                exact hmem r hr
              · rcases List.mem_singleton.mp hr with rfl
                rw [assocFind_append_of_none seen _ _ hseen]
                rfl
            · rw [List.map_append]
              simp only [List.map_cons, List.map_nil]
              rw [List.nodup_append]
              refine ⟨hnd, List.nodup_singleton _, ?_⟩
              intro k hk hk'
              rcases List.mem_singleton.mp hk' with rfl
              rcases List.mem_map.mp hk with ⟨r, hr, hkey⟩
              have := hmem r hr
              rw [hkey, hseen] at this
              simp at this
          · simp only [hseen] at h
            cases h

end Router

/-- The conflicting route tree of the claim: two page routes normalizing
to the same matcher pattern. -/
def c3ConflictFiles : List String :=
  ["app/author/[id]/page.templ", "app/author/[slug]/page.templ"]

/-- C3 (amended): duplicate matcher patterns are detected when the
runtime router is constructed, not during code generation: every
successfully constructed router has pairwise distinct pattern keys, and
constructing a router over the author/[id] plus author/[slug] tree fails
with the conflict error (before anything else happens — NewAppRouter
writes no files). -/
theorem c3_conflict_fails_router_construction (files : List String) (root : String)
    (routes : List Router.appRoute)
    (h : Router.newAppRouter files root = .ok routes) :
    (routes.map (·.patternKey)).Nodup ∧
    Router.newAppRouter c3ConflictFiles "app" =
      .error ("walk app directory: route pattern conflict: " ++
        GoStr.goQuote "author/[id]" ++ " and " ++ GoStr.goQuote "author/[slug]") := by
  refine ⟨?_, by rfl⟩
  simp only [Router.newAppRouter] at h
  split at h
  · cases h
  · rename_i hwalk
    split at h
    · cases h
    · rename_i routes₀ hok
      split at h
      · cases h
      · rw [Except.ok.injEq] at h
        have hnd := Router.walkLoop_nodup_patternKeys (GoStr.goTrimSpace root)
          files [] [] routes₀ hok (by intro r hr; simp at hr) (by simp)
        rw [← h]
        have hperm : List.Perm
            ((Router.sortRoutes routes₀).map (fun r => r.patternKey))
            (routes₀.map (fun r => r.patternKey)) :=
          (List.perm_insertionSort Router.routeLE routes₀).map _
        exact hperm.nodup_iff.mpr hnd

theorem c3_conflict_fails_router_construction_witness :
    (c2SortedRoutes.map (fun r => r.patternKey)).Nodup := by
  exact (c3_conflict_fails_router_construction c2TestFiles "app" c2SortedRoutes (by rfl)).1

/-- The filesystem collaborators for the C3 generation counterexample:
both conflicting routes have page templates and resolver types.go files
declaring PageView, hand-written resolver.go files exist, and go/format
is the identity on the already-formatted generated source. -/
def c3ConflictFS : Gen.GenFS :=
  { templSource := fun path =>
      if path = "m/internal/web/app/author/[id]/page.templ" ∨
         path = "m/internal/web/app/author/[slug]/page.templ" then
        some "package app\n\ntempl Page(view string) \x7b\n\x7d\n"
      else none
    typesFile := fun path =>
      if path = "m/internal/web/appcore/resolvers/author/param_id/types.go" then
        some ⟨"param_id", ["PageView"]⟩
      else if path = "m/internal/web/appcore/resolvers/author/param_slug/types.go" then
        some ⟨"param_slug", ["PageView"]⟩
      else none
    resolverExists := fun _ => true
    liveSelectorOf := fun _ => .error "no live routes in this tree"
    gofmt := fun s => .ok s }

/-- C3 counterexample: running the generation pipeline over the very
tree the claim says must fail — author/[id] and author/[slug], two page
routes normalizing to the same matcher pattern — completes without any
error and writes output files, including a registry that contains both
conflicting handlers; generation performs no pattern-conflict check, so
the failure the claim requires before any output files are written does
not happen. -/
theorem c3_generation_conflict_counterexample :
    (Gen.genRun c3ConflictFS "m"
      ["author/[id]/page.templ", "author/[slug]/page.templ"]).2 = none ∧
    ((Gen.genRun c3ConflictFS "m"
      ["author/[id]/page.templ", "author/[slug]/page.templ"]).1.any (fun w =>
        match w with
        | .writeFile p _ => p = "m/internal/web/gen/registry_gen.go"
        | _ => false)) = true ∧
    (Gen.genRun c3ConflictFS "m"
      ["author/[id]/page.templ", "author/[slug]/page.templ"]).1.length = 11 := by
  refine ⟨rfl, rfl, rfl⟩

namespace GoStr

theorem str_data_append (s t : String) : (s ++ t).data = s.data ++ t.data := rfl

theorem strMk_data (s : String) : (⟨s.data⟩ : String) = s := rfl

/-- A character accepted by the dynamic-name pattern: a letter, digit or
underscore. -/
def alnumish (c : Char) : Prop := (isAsciiAlpha c || isAsciiDigit c || c = '_') = true

theorem alnumish_not_space {c : Char} (h : alnumish c) : goIsSpace c = false := by
  by_contra hsp
  have hmem : c ∈ goSpaceChars := by
    have h' : goIsSpace c = true := by simpa using hsp
    simpa [goIsSpace] using h'
  unfold alnumish at h
  fin_cases hmem <;> revert h <;> decide

theorem alnumish_ne_lbracket {c : Char} (h : alnumish c) : c ≠ '[' := by
  intro heq; subst heq; unfold alnumish at h; revert h; decide

theorem alnumish_ne_rbracket {c : Char} (h : alnumish c) : c ≠ ']' := by
  intro heq; subst heq; unfold alnumish at h; revert h; decide

theorem alnumish_ne_underscore_ne {c : Char} (h : alnumish c) : c ≠ '[' ∧ c ≠ ']' :=
  ⟨alnumish_ne_lbracket h, alnumish_ne_rbracket h⟩

theorem dynNameOK_spec {name : String} (h : dynNameOK name = true) :
    name.data ≠ [] ∧ ∀ c ∈ name.data, alnumish c := by
  unfold dynNameOK at h
  rcases hd : name.data with _ | ⟨c, rest⟩
  · rw [hd] at h; cases h
  · rw [hd] at h
    simp only [Bool.and_eq_true, List.all_eq_true] at h
    refine ⟨by simp, ?_⟩
    intro d hdm
    rcases List.mem_cons.mp hdm with rfl | hdm
    · unfold alnumish
      simp [h.1]
    · have := h.2 d hdm
      unfold alnumish
      simpa using this

theorem dropWhile_eq_self_of_all {p : Char → Bool} :
    ∀ (l : List Char), (∀ c ∈ l, p c = false) → l.dropWhile p = l := by
  intro l h
  cases l with
  | nil => rfl
  | cons c rest =>
    rw [List.dropWhile_cons_of_neg]
    simp [h c (by simp)]

theorem goTrimL_eq_self_of_all (l : List Char) (h : ∀ c ∈ l, goIsSpace c = false) :
    goTrimL l = l := by
  unfold goTrimL trimTrailing
  rw [dropWhile_eq_self_of_all l h]
  rw [dropWhile_eq_self_of_all l.reverse (fun c hc => h c (List.mem_reverse.mp hc))]
  exact List.reverse_reverse l

theorem goTrimSpace_eq_self_of_all (s : String) (h : ∀ c ∈ s.data, goIsSpace c = false) :
    goTrimSpace s = s := by
  unfold goTrimSpace
  rw [goTrimL_eq_self_of_all s.data h]

theorem mem_dropWhile_of_not {p : Char → Bool} :
    ∀ (l : List Char) (c : Char), p c = false → c ∈ l → c ∈ l.dropWhile p := by
  intro l
  induction l with
  | nil => intro c _ hm; cases hm
  | cons d rest ih =>
    intro c hc hm
    by_cases hd : p d
    · rw [List.dropWhile_cons_of_pos hd]
      rcases List.mem_cons.mp hm with rfl | hm
      · rw [hd] at hc; cases hc
      · exact ih c hc hm
    · rw [List.dropWhile_cons_of_neg hd]
      exact hm

theorem mem_goTrimL_of_not_space (l : List Char) (c : Char)
    (hc : goIsSpace c = false) (hm : c ∈ l) : c ∈ goTrimL l := by
  unfold goTrimL trimTrailing
  rw [List.mem_reverse]
  exact mem_dropWhile_of_not _ c hc (by
    rw [List.mem_reverse]
    exact mem_dropWhile_of_not _ c hc hm)

theorem dynNameOK_false_of_bracket {s : String}
    (h : ∃ c ∈ s.data, c = '[' ∨ c = ']') : dynNameOK s = false := by
  rcases h with ⟨c, hmem, hbr⟩
  unfold dynNameOK
  rcases hd : s.data with _ | ⟨d, rest⟩
  · rfl
  · rw [hd] at hmem
    rcases List.mem_cons.mp hmem with rfl | hmem
    · have : isAsciiAlpha c = false := by
        rcases hbr with rfl | rfl <;> decide
      simp [this]
    · have hall : rest.all (fun d => isAsciiAlpha d || isAsciiDigit d || d = '_') = false := by
        rw [List.all_eq_false]
        refine ⟨c, hmem, ?_⟩
        rcases hbr with rfl | rfl <;> decide
      simp [hall]

end GoStr

namespace GoStr

theorem strStartsWith_underscore_data {s : String}
    (h : strStartsWith s "_" = true) : ∃ rest, s.data = '_' :: rest := by
  unfold strStartsWith at h
  have h' := of_decide_eq_true h
  rcases hd : s.data with _ | ⟨c, rest⟩
  · rw [hd] at h'; cases h'
  · rw [hd] at h'
    simp only [List.take] at h'
    refine ⟨rest, ?_⟩
    rcases h' with ⟨rfl, _⟩
    rfl

theorem containsBracket_exists {s : String} (h : containsBracket s = true) :
    ∃ c ∈ s.data, c = '[' ∨ c = ']' := by
  unfold containsBracket at h
  rcases List.any_eq_true.mp h with ⟨c, hmem, hc⟩
  exact ⟨c, hmem, of_decide_eq_true hc⟩

end GoStr

/-- C9: the two coexisting segment parsers classify segments as the spec
describes: a bracket-wrapped segment whose inner name matches the
dynamic-name pattern is dynamic in both; a segment containing a stray
bracket that is not properly wrapped fails both parsers; and an
underscore-prefixed segment is rejected with the migration-hint error by
the generation-time parser but accepted as equivalent to the bracketed
form by the runtime-router parser. -/
theorem c9_segment_parser_variants (name seg : String)
    (hname : GoStr.dynNameOK name = true)
    (htrim : GoStr.goTrimSpace seg = seg)
    (hbr : GoStr.containsBracket seg = true)
    (hnw : ¬ (GoStr.strStartsWith seg "[" = true ∧ GoStr.strEndsWith seg "]" = true)) :
    (Gen.parseRouteSegment ("[" ++ name ++ "]") = .ok ⟨"", name⟩ ∧
     Router.parseWildcardSegment ("[" ++ name ++ "]") =
       .ok (name, true, "[" ++ name ++ "]")) ∧
    ((∃ e, Gen.parseRouteSegment seg = .error e) ∧
     (∃ e, Router.parseWildcardSegment seg = .error e)) ∧
    (Gen.parseRouteSegment ("_" ++ name) =
       .error ("legacy wildcard segment " ++ GoStr.goQuote ("_" ++ name) ++
         " is not allowed; use [param] directories") ∧
     Router.parseWildcardSegment ("_" ++ name) = .ok (name, true, "[" ++ name ++ "]")) := by
  obtain ⟨hne, hall⟩ := GoStr.dynNameOK_spec hname
  have hnospace : ∀ c ∈ name.data, GoStr.goIsSpace c = false :=
    fun c hc => GoStr.alnumish_not_space (hall c hc)
  -- facts about the bracket-wrapped segment
  have hwdata : ("[" ++ name ++ "]").data = '[' :: (name.data ++ [']']) := rfl
  have hwallns : ∀ c ∈ ("[" ++ name ++ "]").data, GoStr.goIsSpace c = false := by
    rw [hwdata]
    intro c hc
    rcases List.mem_cons.mp hc with rfl | hc
    · decide
    · rcases List.mem_append.mp hc with hc | hc
      · exact hnospace c hc
      · rcases List.mem_singleton.mp hc with rfl
        decide
  have hwtrim : GoStr.goTrimSpace ("[" ++ name ++ "]") = "[" ++ name ++ "]" :=
    GoStr.goTrimSpace_eq_self_of_all _ hwallns
  have hwne : ("[" ++ name ++ "]") ≠ "" := by
    intro he
    have hd := congrArg String.data he
    rw [hwdata] at hd
    cases hd
  have hwstart : GoStr.strStartsWith ("[" ++ name ++ "]") "[" = true := rfl
  have hwstartus : GoStr.strStartsWith ("[" ++ name ++ "]") "_" = false := rfl
  have hwsplit : '[' :: (name.data ++ [']']) = ('[' :: name.data) ++ [']'] := rfl
  have hwend : GoStr.strEndsWith ("[" ++ name ++ "]") "]" = true := by
    unfold GoStr.strEndsWith
    rw [decide_eq_true_eq]
    constructor
    · rw [hwdata]
      simp
    · rw [hwdata, hwsplit]
      have hlen : (('[' :: name.data) ++ [']']).length - ("]" : String).data.length =
          ('[' :: name.data).length := by simp
      rw [hlen, List.drop_left]
  have hinner : (("[" ++ name ++ "]").data.drop 1).dropLast = name.data := by
    rw [hwdata]
    simp only [List.drop_succ_cons, List.drop_zero]
    exact List.dropLast_concat
  have hinnertrim : GoStr.goTrimSpace ⟨(("[" ++ name ++ "]").data.drop 1).dropLast⟩ = name := by
    rw [hinner, GoStr.strMk_data]
    exact GoStr.goTrimSpace_eq_self_of_all name hnospace
  -- facts about the underscore segment
  have hudata : ("_" ++ name).data = '_' :: name.data := rfl
  have huallns : ∀ c ∈ ("_" ++ name).data, GoStr.goIsSpace c = false := by
    rw [hudata]
    intro c hc
    rcases List.mem_cons.mp hc with rfl | hc
    · decide
    · exact hnospace c hc
  have hutrim : GoStr.goTrimSpace ("_" ++ name) = "_" ++ name :=
    GoStr.goTrimSpace_eq_self_of_all _ huallns
  have hune : ("_" ++ name) ≠ "" := by
    intro he
    have hd := congrArg String.data he
    rw [hudata] at hd
    cases hd
  have hustartlb : GoStr.strStartsWith ("_" ++ name) "[" = false := rfl
  have hustartus : GoStr.strStartsWith ("_" ++ name) "_" = true := rfl
  obtain ⟨l', cl, hdecomp, hcl⟩ :
      ∃ l' cl, name.data = l' ++ [cl] ∧ GoStr.alnumish cl :=
    ⟨name.data.dropLast, name.data.getLast hne,
      (List.dropLast_append_getLast hne).symm, hall _ (List.getLast_mem hne)⟩
  have huend : GoStr.strEndsWith ("_" ++ name) "]" = false := by
    unfold GoStr.strEndsWith
    rw [decide_eq_false_iff_not]
    rintro ⟨_, hdrop⟩
    rw [hudata, hdecomp] at hdrop
    have hsplit : '_' :: (l' ++ [cl]) = ('_' :: l') ++ [cl] := rfl
    rw [hsplit] at hdrop
    have hlen : (('_' :: l') ++ [cl]).length - ("]" : String).data.length =
        ('_' :: l').length := by simp
    rw [hlen, List.drop_left] at hdrop
    have : cl = ']' := by
      have := congrArg (fun l => l.headI) hdrop
      simpa using this
    exact GoStr.alnumish_ne_rbracket hcl this
  have hudrop : GoStr.goTrimSpace ⟨("_" ++ name).data.drop 1⟩ = name := by
    rw [hudata]
    simp only [List.drop_succ_cons, List.drop_zero]
    rw [GoStr.strMk_data]
    exact GoStr.goTrimSpace_eq_self_of_all name hnospace
  refine ⟨⟨?_, ?_⟩, ⟨?_, ?_⟩, ?_, ?_⟩
  · -- generation parser accepts the wrapped segment
    simp only [Gen.parseRouteSegment, hwtrim, hwne, if_false, hwstart, hwend, hinnertrim,
      hname, if_neg, Bool.true_eq_false]
    simp
  · -- runtime parser accepts the wrapped segment
    simp only [Router.parseWildcardSegment, hwstartus, hwstart, hwend, hinnertrim, hname,
      Bool.false_eq_true]
    simp
  · -- generation parser rejects a stray bracket
    simp only [Gen.parseRouteSegment, htrim]
    have hsegne : seg ≠ "" := by
      rcases GoStr.containsBracket_exists hbr with ⟨c, hmem, _⟩
      intro he
      rw [he] at hmem
      cases hmem
    rw [if_neg hsegne]
    by_cases hsw : GoStr.strStartsWith seg "[" = true ∨ GoStr.strEndsWith seg "]" = true
    · rw [if_pos hsw]
      rw [if_pos hnw]
      exact ⟨_, rfl⟩
    · rw [if_neg hsw]
      by_cases hus : GoStr.strStartsWith seg "_" = true
      · rw [if_pos hus]
        exact ⟨_, rfl⟩
      · rw [if_neg hus]
        rw [if_pos hbr]
        exact ⟨_, rfl⟩
  · -- runtime parser rejects a stray bracket
    simp only [Router.parseWildcardSegment]
    by_cases hus : GoStr.strStartsWith seg "_" = true
    · rw [if_pos hus]
      rcases GoStr.strStartsWith_underscore_data hus with ⟨rest, hdata⟩
      rcases GoStr.containsBracket_exists hbr with ⟨c, hmem, hc⟩
      have hcrest : c ∈ rest := by
        rw [hdata] at hmem
        rcases List.mem_cons.mp hmem with hc0 | hmem'
        · subst hc0
          rcases hc with h | h <;> exact absurd h (by decide)
        · exact hmem'
      have hcns : GoStr.goIsSpace c = false := by
        rcases hc with rfl | rfl <;> decide
      have hdropdata : (⟨seg.data.drop 1⟩ : String) = (⟨rest⟩ : String) := by
        rw [hdata]
        rfl
      have hnamefalse : GoStr.dynNameOK (GoStr.goTrimSpace ⟨seg.data.drop 1⟩) = false := by
        rw [hdropdata]
        apply GoStr.dynNameOK_false_of_bracket
        refine ⟨c, ?_, hc⟩
        exact GoStr.mem_goTrimL_of_not_space rest c hcns hcrest
      rw [hnamefalse]
      simp
    · rw [if_neg hus]
      by_cases hsw : GoStr.strStartsWith seg "[" = true ∨ GoStr.strEndsWith seg "]" = true
      · rw [if_pos hsw, if_pos hnw]
        exact ⟨_, rfl⟩
      · rw [if_neg hsw, if_pos hbr]
        exact ⟨_, rfl⟩
  · -- generation parser rejects the underscore form with the hint
    simp only [Gen.parseRouteSegment, hutrim]
    rw [if_neg hune]
    rw [if_neg (by simp [hustartlb, huend])]
    rw [if_pos hustartus]
  · -- runtime parser accepts the underscore form
    simp only [Router.parseWildcardSegment, hustartus, hudrop, hname]
    simp

/-- Witness for C9 at name "slug" and stray-bracket segment "a[b". -/
theorem c9_segment_parser_variants_witness :
    GoStr.dynNameOK "slug" = true ∧ GoStr.goTrimSpace "a[b" = "a[b" ∧
    GoStr.containsBracket "a[b" = true ∧
    ¬ (GoStr.strStartsWith "a[b" "[" = true ∧ GoStr.strEndsWith "a[b" "]" = true) ∧
    ((Gen.parseRouteSegment ("[" ++ "slug" ++ "]") = .ok ⟨"", "slug"⟩ ∧
      Router.parseWildcardSegment ("[" ++ "slug" ++ "]") =
        .ok ("slug", true, "[" ++ "slug" ++ "]")) ∧
     ((∃ e, Gen.parseRouteSegment "a[b" = .error e) ∧
      (∃ e, Router.parseWildcardSegment "a[b" = .error e)) ∧
     (Gen.parseRouteSegment ("_" ++ "slug") =
        .error ("legacy wildcard segment " ++ GoStr.goQuote ("_" ++ "slug") ++
          " is not allowed; use [param] directories") ∧
      Router.parseWildcardSegment ("_" ++ "slug") = .ok ("slug", true, "[" ++ "slug" ++ "]"))) :=
  ⟨by decide, by decide, by decide, by decide,
   c9_segment_parser_variants "slug" "a[b" (by decide) (by decide) (by decide) (by decide)⟩

namespace GoStr

theorem dropWhile_append_slash (l : List Char) :
    (l ++ ['/']).dropWhile goIsSpace = l.dropWhile goIsSpace ++ ['/'] := by
  induction l with
  | nil =>
    simp only [List.nil_append, List.dropWhile_nil]
    rw [List.dropWhile_cons_of_neg (by decide)]
  | cons c t ih =>
    by_cases hp : goIsSpace c = true
    · rw [List.cons_append, List.dropWhile_cons_of_pos hp, List.dropWhile_cons_of_pos hp, ih]
    · rw [List.cons_append, List.dropWhile_cons_of_neg hp, List.dropWhile_cons_of_neg hp,
        List.cons_append]

theorem trimTrailing_append_slash (l : List Char) :
    trimTrailing (l ++ ['/']) = l ++ ['/'] := by
  unfold trimTrailing
  have hrev : (l ++ ['/']).reverse = '/' :: l.reverse := by simp
  rw [hrev, List.dropWhile_cons_of_neg (by decide)]
  simp

theorem goTrimL_append_slash (l : List Char) :
    goTrimL (l ++ ['/']) = l.dropWhile goIsSpace ++ ['/'] := by
  unfold goTrimL
  rw [dropWhile_append_slash, trimTrailing_append_slash]

theorem dropWhile_suffix_exists (p : Char → Bool) :
    ∀ (l : List Char), ∃ pre, pre ++ l.dropWhile p = l := by
  intro l
  induction l with
  | nil => exact ⟨[], rfl⟩
  | cons c t ih =>
    by_cases hp : p c = true
    · obtain ⟨pre, hpre⟩ := ih
      rw [List.dropWhile_cons_of_pos hp]
      exact ⟨c :: pre, by rw [List.cons_append, hpre]⟩
    · rw [List.dropWhile_cons_of_neg hp]
      exact ⟨[], rfl⟩

theorem length_dropWhile_le' {p : Char → Bool} :
    ∀ (l : List Char), (l.dropWhile p).length ≤ l.length := by
  intro l
  induction l with
  | nil => simp
  | cons c t ih =>
    by_cases hp : p c = true
    · rw [List.dropWhile_cons_of_pos hp]
      exact Nat.le_trans ih (Nat.le_succ _)
    · rw [List.dropWhile_cons_of_neg hp]

theorem dropWhile_append_eq_self {p : Char → Bool} (a b : List Char)
    (h : (a ++ b).dropWhile p = a ++ b) : a.dropWhile p = a := by
  cases a with
  | nil => rfl
  | cons c t =>
    by_cases hp : p c = true
    · exfalso
      rw [List.cons_append, List.dropWhile_cons_of_pos hp] at h
      have hlen := congrArg List.length h
      have hle := length_dropWhile_le' (p := p) (t ++ b)
      simp only [List.length_cons] at hlen
      omega
    · rw [List.dropWhile_cons_of_neg hp]

theorem trimTrailing_dropWhile (l : List Char) (h : trimTrailing l = l) :
    trimTrailing (l.dropWhile goIsSpace) = l.dropWhile goIsSpace := by
  have h' : l.reverse.dropWhile goIsSpace = l.reverse := by
    have hc := congrArg List.reverse h
    unfold trimTrailing at hc
    rwa [List.reverse_reverse] at hc
  obtain ⟨pre, hpre⟩ := dropWhile_suffix_exists goIsSpace l
  have hrev : l.reverse = (l.dropWhile goIsSpace).reverse ++ pre.reverse := by
    rw [← List.reverse_append, hpre]
  rw [hrev] at h'
  have hself := dropWhile_append_eq_self _ _ h'
  unfold trimTrailing
  rw [hself, List.reverse_reverse]

theorem splitOnSlash_ne_nil : ∀ (l : List Char), splitOnSlash l ≠ [] := by
  intro l
  cases l with
  | nil => simp [splitOnSlash]
  | cons c rest =>
    unfold splitOnSlash
    by_cases hc : c = '/'
    · simp [hc]
    · rw [if_neg hc]
      rcases h : splitOnSlash rest with _ | ⟨s, ss⟩ <;> simp

theorem splitOnSlash_append_slash : ∀ (l : List Char),
    splitOnSlash (l ++ ['/']) = splitOnSlash l ++ [[]] := by
  intro l
  induction l with
  | nil => rfl
  | cons c rest ih =>
    by_cases hc : c = '/'
    · subst hc
      rw [List.cons_append]
      show splitOnSlash ('/' :: (rest ++ ['/'])) = splitOnSlash ('/' :: rest) ++ [[]]
      unfold splitOnSlash
      rw [if_pos rfl, if_pos rfl, ih, List.cons_append]
    · rcases h : splitOnSlash rest with _ | ⟨s, ss⟩
      · exact absurd h (splitOnSlash_ne_nil rest)
      · rw [List.cons_append]
        show splitOnSlash (c :: (rest ++ ['/'])) = splitOnSlash (c :: rest) ++ [[]]
        unfold splitOnSlash
        rw [if_neg hc, if_neg hc, ih, h, List.cons_append]
        rfl

theorem cleanSegsRooted_append_nil (parts : List (List Char)) :
    cleanSegsRooted (parts ++ [[]]) = cleanSegsRooted parts := by
  unfold cleanSegsRooted
  rw [List.foldl_append]
  simp [cleanStepRooted]

end GoStr

namespace Router

open GoStr

/-- Successful classification by parseWildcardSegment, as a Boolean. -/
def exceptIsOk {ε α : Type} : Except ε α → Bool
  | .ok _ => true
  | .error _ => false

/-- The dynamic-parameter names of a segment list, in order, as
parseWildcardSegment classifies them at match time. -/
def segDynNames (segs : List String) : List String :=
  segs.filterMap (fun s =>
    match parseWildcardSegment s with
    | .ok (name, true, _) => some name
    | _ => none)

theorem mapAssign_find_self (m : List (String × String)) (k v : String) :
    assocFind (mapAssign m k v) k = some v := by
  induction m with
  | nil => simp [mapAssign, assocFind]
  | cons p rest ih =>
    obtain ⟨a, b⟩ := p
    by_cases hak : a = k
    · simp [mapAssign, hak, assocFind]
    · simp only [mapAssign, if_neg hak, assocFind]
      exact ih

theorem mapAssign_find_ne (m : List (String × String)) (k v k' : String) (h : k' ≠ k) :
    assocFind (mapAssign m k v) k' = assocFind m k' := by
  induction m with
  | nil =>
    simp only [mapAssign, assocFind]
    rw [if_neg (fun he => h he.symm)]
  | cons p rest ih =>
    obtain ⟨a, b⟩ := p
    by_cases hak : a = k
    · simp only [mapAssign, if_pos hak, assocFind]
      have hne : ¬ a = k' := fun he => h ((hak.symm.trans he).symm)
      rw [if_neg hne, if_neg hne]
    · simp only [mapAssign, if_neg hak, assocFind]
      by_cases hak' : a = k'
      · rw [if_pos hak', if_pos hak']
      · rw [if_neg hak', if_neg hak', ih]

theorem segDynNames_cons_dyn {p name rp : String}
    (hp : parseWildcardSegment p = .ok (name, true, rp)) (ps : List String) :
    segDynNames (p :: ps) = name :: segDynNames ps := by
  simp [segDynNames, List.filterMap_cons, hp]

theorem segDynNames_cons_static {p name rp : String}
    (hp : parseWildcardSegment p = .ok (name, false, rp)) (ps : List String) :
    segDynNames (p :: ps) = segDynNames ps := by
  simp [segDynNames, List.filterMap_cons, hp]

theorem splitPathSegments_append_slash (q : String)
    (h : GoStr.trimTrailing q.data = q.data) :
    splitPathSegments (q ++ "/") = splitPathSegments q := by
  unfold splitPathSegments
  have hdata : (q ++ "/").data = q.data ++ ['/'] := rfl
  rw [hdata, goTrimL_append_slash, splitOnSlash_append_slash, cleanSegsRooted_append_nil]
  have hq : goTrimL q.data = q.data.dropWhile goIsSpace := by
    unfold goTrimL
    exact trimTrailing_dropWhile q.data h
  rw [hq]

theorem matchPathPattern_append_slash (pattern q : String)
    (h : GoStr.trimTrailing q.data = q.data) :
    matchPathPattern pattern (q ++ "/") = matchPathPattern pattern q := by
  unfold matchPathPattern
  rw [splitPathSegments_append_slash q h]

theorem matchPatternLoop_preserve (n : String) :
    ∀ (ps qs : List String) (params res : List (String × String)),
      matchPatternLoop ps qs params = some res →
      n ∉ segDynNames ps →
      assocFind res n = assocFind params n := by
  intro ps
  induction ps with
  | nil =>
    intro qs params res h _
    cases qs <;> · simp only [matchPatternLoop, Option.some.injEq] at h
                   rw [← h]
  | cons p ps' ih =>
    intro qs params res h hn
    cases qs with
    | nil =>
      simp only [matchPatternLoop] at h
      exact Option.noConfusion h
    | cons v vs =>
      simp only [matchPatternLoop] at h
      rcases hp : parseWildcardSegment p with e | ⟨name, isP, rp⟩
      · simp only [hp] at h
        exact Option.noConfusion h
      · simp only [hp] at h
        cases isP with
        | false =>
          simp only [Bool.false_eq_true, if_false] at h
          by_cases hpv : p = v
          · rw [if_pos hpv] at h
            exact ih vs params res h (fun hm => hn ((segDynNames_cons_static hp ps') ▸ hm))
          · rw [if_neg hpv] at h
            exact Option.noConfusion h
        | true =>
          rw [if_pos rfl] at h
          rw [segDynNames_cons_dyn hp ps'] at hn
          have hnname : n ≠ name := fun he => hn (he ▸ List.mem_cons_self name _)
          have hn' : n ∉ segDynNames ps' := fun hm => hn (List.mem_cons_of_mem name hm)
          rw [ih vs _ res h hn', mapAssign_find_ne params name v n hnname]

theorem matchPatternLoop_capture :
    ∀ (ps qs : List String) (params res : List (String × String)),
      matchPatternLoop ps qs params = some res →
      (segDynNames ps).Nodup →
      ∀ i (hi : i < ps.length) (hqi : i < qs.length) (name rp : String),
        parseWildcardSegment (ps.get ⟨i, hi⟩) = .ok (name, true, rp) →
        assocFind res name = some (qs.get ⟨i, hqi⟩) := by
  intro ps
  induction ps with
  | nil =>
    intro qs params res _ _ i hi
    exact absurd hi (by simp)
  | cons p ps' ih =>
    intro qs params res h hnd i hi hqi name rp hseg
    cases qs with
    | nil =>
      simp only [matchPatternLoop] at h
      exact Option.noConfusion h
    | cons v vs =>
      simp only [matchPatternLoop] at h
      rcases hp : parseWildcardSegment p with e | ⟨pname, isP, prp⟩
      · simp only [hp] at h
        exact Option.noConfusion h
      · simp only [hp] at h
        cases isP with
        | false =>
          simp only [Bool.false_eq_true, if_false] at h
          by_cases hpv : p = v
          · rw [if_pos hpv] at h
            rw [segDynNames_cons_static hp ps'] at hnd
            cases i with
            | zero =>
              have hps : (p :: ps').get ⟨0, hi⟩ = p := rfl
              rw [hps, hp] at hseg
              exact absurd hseg (by simp)
            | succ j =>
              have hj : j < ps'.length := by
                simpa [Nat.succ_lt_succ_iff] using hi
              have hqj : j < vs.length := by
                simpa [Nat.succ_lt_succ_iff] using hqi
              exact ih vs params res h hnd j hj hqj name rp hseg
          · rw [if_neg hpv] at h
            exact Option.noConfusion h
        | true =>
          rw [if_pos rfl] at h
          rw [segDynNames_cons_dyn hp ps'] at hnd
          have hpnot : pname ∉ segDynNames ps' := (List.nodup_cons.mp hnd).1
          have hnd' : (segDynNames ps').Nodup := (List.nodup_cons.mp hnd).2
          cases i with
          | zero =>
            have hps : (p :: ps').get ⟨0, hi⟩ = p := rfl
            rw [hps, hp] at hseg
            have hinj : pname = name ∧ prp = rp := by
              have := hseg
              simp only [Except.ok.injEq, Prod.mk.injEq] at this
              exact ⟨this.1, this.2.2⟩
            obtain ⟨rfl, rfl⟩ := hinj
            rw [matchPatternLoop_preserve pname ps' vs _ res h hpnot, mapAssign_find_self]
            rfl
          | succ j =>
            have hj : j < ps'.length := by
              simpa [Nat.succ_lt_succ_iff] using hi
            have hqj : j < vs.length := by
              simpa [Nat.succ_lt_succ_iff] using hqi
            exact ih vs _ res h hnd' j hj hqj name rp hseg

theorem matchPatternLoop_isSome_iff :
    ∀ (ps qs : List String) (params : List (String × String)),
      ps.length = qs.length →
      (∀ s ∈ ps, exceptIsOk (parseWildcardSegment s) = true) →
      ((matchPatternLoop ps qs params).isSome = true ↔
        ∀ i (hi : i < ps.length) (hqi : i < qs.length) (name rp : String),
          parseWildcardSegment (ps.get ⟨i, hi⟩) = .ok (name, false, rp) →
          ps.get ⟨i, hi⟩ = qs.get ⟨i, hqi⟩) := by
  intro ps
  induction ps with
  | nil =>
    intro qs params _ _
    constructor
    · intro _ i hi
      exact absurd hi (by simp)
    · intro _
      simp [matchPatternLoop]
  | cons p ps' ih =>
    intro qs params hlen hwf
    cases qs with
    | nil => simp at hlen
    | cons v vs =>
      have hlen' : ps'.length = vs.length := by simpa using hlen
      have hwfp := hwf p (List.mem_cons_self p ps')
      have hwf' : ∀ s ∈ ps', exceptIsOk (parseWildcardSegment s) = true :=
        fun s hs => hwf s (List.mem_cons_of_mem p hs)
      rcases hp : parseWildcardSegment p with e | ⟨name, isP, rp⟩
      · rw [hp] at hwfp
        simp [exceptIsOk] at hwfp
      · simp only [matchPatternLoop, hp]
        cases isP with
        | true =>
          rw [if_pos rfl]
          rw [ih vs (mapAssign params name v) hlen' hwf']
          constructor
          · intro hfor i hi hqi name' rp' hseg
            cases i with
            | zero =>
              have hps : (p :: ps').get ⟨0, hi⟩ = p := rfl
              rw [hps, hp] at hseg
              exact absurd hseg (by simp)
            | succ j =>
              have hj : j < ps'.length := by
                simpa [Nat.succ_lt_succ_iff] using hi
              have hqj : j < vs.length := by
                simpa [Nat.succ_lt_succ_iff] using hqi
              exact hfor j hj hqj name' rp' hseg
          · intro hfor j hj hqj name' rp' hseg
            have hj1 : j + 1 < (p :: ps').length := by
              simpa [Nat.succ_lt_succ_iff] using hj
            have hqj1 : j + 1 < (v :: vs).length := by
              simpa [Nat.succ_lt_succ_iff] using hqj
            exact hfor (j + 1) hj1 hqj1 name' rp' hseg
        | false =>
          simp only [Bool.false_eq_true, if_false]
          by_cases hpv : p = v
          · rw [if_pos hpv, ih vs params hlen' hwf']
            constructor
            · intro hfor i hi hqi name' rp' hseg
              cases i with
              | zero => exact hpv
              | succ j =>
                have hj : j < ps'.length := by
                  simpa [Nat.succ_lt_succ_iff] using hi
                have hqj : j < vs.length := by
                  simpa [Nat.succ_lt_succ_iff] using hqi
                exact hfor j hj hqj name' rp' hseg
            · intro hfor j hj hqj name' rp' hseg
              have hj1 : j + 1 < (p :: ps').length := by
                simpa [Nat.succ_lt_succ_iff] using hj
              have hqj1 : j + 1 < (v :: vs).length := by
                simpa [Nat.succ_lt_succ_iff] using hqj
              exact hfor (j + 1) hj1 hqj1 name' rp' hseg
          · rw [if_neg hpv]
            simp only [Option.isSome_none, Bool.false_eq_true, false_iff]
            intro hfor
            exact hpv (hfor 0 (by simp) (by simp) name rp hp)

end Router

/-- C4: for a well-formed pattern (every cleaned pattern segment classifies
successfully, with pairwise-distinct dynamic parameter names), the matcher
succeeds on a request path iff both clean to the same number of segments
and every static pattern segment equals the corresponding request segment
case-sensitively; on success every dynamic pattern segment's parameter
name maps to the corresponding request segment's value; and — amended —
appending a trailing slash to the request path leaves the match result
unchanged provided the request path has no trailing white space (with
trailing white space the two results can differ, because TrimSpace runs
before path cleaning). -/
theorem c4_matcher_characterization (pattern q : String)
    (hwf : ∀ s ∈ Router.splitPathSegments pattern,
      Router.exceptIsOk (Router.parseWildcardSegment s) = true)
    (hnd : (Router.segDynNames (Router.splitPathSegments pattern)).Nodup)
    (hq : GoStr.trimTrailing q.data = q.data) :
    ((Router.matchPathPattern pattern q).isSome = true ↔
      ((Router.splitPathSegments pattern).length = (Router.splitPathSegments q).length ∧
        ∀ i (hi : i < (Router.splitPathSegments pattern).length)
          (hqi : i < (Router.splitPathSegments q).length) (name rp : String),
          Router.parseWildcardSegment ((Router.splitPathSegments pattern).get ⟨i, hi⟩) =
            .ok (name, false, rp) →
          (Router.splitPathSegments pattern).get ⟨i, hi⟩ =
            (Router.splitPathSegments q).get ⟨i, hqi⟩)) ∧
    (∀ params, Router.matchPathPattern pattern q = some params →
      ∀ i (hi : i < (Router.splitPathSegments pattern).length)
        (hqi : i < (Router.splitPathSegments q).length) (name rp : String),
        Router.parseWildcardSegment ((Router.splitPathSegments pattern).get ⟨i, hi⟩) =
          .ok (name, true, rp) →
        Router.assocFind params name = some ((Router.splitPathSegments q).get ⟨i, hqi⟩)) ∧
    Router.matchPathPattern pattern (q ++ "/") = Router.matchPathPattern pattern q := by
  refine ⟨?_, ?_, Router.matchPathPattern_append_slash pattern q hq⟩
  · by_cases hlen :
      (Router.splitPathSegments pattern).length = (Router.splitPathSegments q).length
    · have hguard : ¬ (Router.splitPathSegments pattern).length ≠
          (Router.splitPathSegments q).length := fun hne => hne hlen
      simp only [Router.matchPathPattern, if_neg hguard]
      rw [Router.matchPatternLoop_isSome_iff _ _ [] hlen hwf]
      constructor
      · intro hfor
        exact ⟨hlen, hfor⟩
      · intro hc
        exact hc.2
    · simp only [Router.matchPathPattern, if_pos hlen]
      constructor
      · intro hfalse
        simp at hfalse
      · intro hc
        exact absurd hc.1 hlen
  · intro params hmatch i hi hqi name rp hseg
    have hloop : Router.matchPatternLoop (Router.splitPathSegments pattern)
        (Router.splitPathSegments q) [] = some params := by
      simp only [Router.matchPathPattern] at hmatch
      by_cases hlen : (Router.splitPathSegments pattern).length ≠
          (Router.splitPathSegments q).length
      · rw [if_pos hlen] at hmatch
        exact Option.noConfusion hmatch
      · rwa [if_neg hlen] at hmatch
    exact Router.matchPatternLoop_capture _ _ [] params hloop hnd i hi hqi name rp hseg

/-- C4 counterexample to the unconditional trailing-slash part of the
claim: the pattern "/a" matches the request path "/a " (TrimSpace removes
the trailing blank before cleaning), but appending a slash shields the
blank from TrimSpace and the match fails. -/
theorem c4_trailing_slash_counterexample :
    Router.matchPathPattern "/a" "/a " = some [] ∧
    Router.matchPathPattern "/a" ("/a " ++ "/") = none := by
  constructor <;> rfl

/-- Witness for C4 at pattern "/author/[slug]" and request path
"/author/nina". -/
theorem c4_matcher_characterization_witness :
    (∀ s ∈ Router.splitPathSegments "/author/[slug]",
      Router.exceptIsOk (Router.parseWildcardSegment s) = true) ∧
    (Router.segDynNames (Router.splitPathSegments "/author/[slug]")).Nodup ∧
    GoStr.trimTrailing ("/author/nina" : String).data = ("/author/nina" : String).data ∧
    (((Router.matchPathPattern "/author/[slug]" "/author/nina").isSome = true ↔
      ((Router.splitPathSegments "/author/[slug]").length =
          (Router.splitPathSegments "/author/nina").length ∧
        ∀ i (hi : i < (Router.splitPathSegments "/author/[slug]").length)
          (hqi : i < (Router.splitPathSegments "/author/nina").length) (name rp : String),
          Router.parseWildcardSegment
              ((Router.splitPathSegments "/author/[slug]").get ⟨i, hi⟩) =
            .ok (name, false, rp) →
          (Router.splitPathSegments "/author/[slug]").get ⟨i, hi⟩ =
            (Router.splitPathSegments "/author/nina").get ⟨i, hqi⟩)) ∧
    (∀ params, Router.matchPathPattern "/author/[slug]" "/author/nina" = some params →
      ∀ i (hi : i < (Router.splitPathSegments "/author/[slug]").length)
        (hqi : i < (Router.splitPathSegments "/author/nina").length) (name rp : String),
        Router.parseWildcardSegment
            ((Router.splitPathSegments "/author/[slug]").get ⟨i, hi⟩) =
          .ok (name, true, rp) →
        Router.assocFind params name =
          some ((Router.splitPathSegments "/author/nina").get ⟨i, hqi⟩)) ∧
    Router.matchPathPattern "/author/[slug]" ("/author/nina" ++ "/") =
      Router.matchPathPattern "/author/[slug]" "/author/nina") :=
  ⟨by decide, by decide, by decide,
   c4_matcher_characterization "/author/[slug]" "/author/nina"
     (by decide) (by decide) (by decide)⟩

namespace Gen

open GoStr

instance : IsTotal routeMeta metaLE where
  total a b := IsTotal.total (r := strLe) a.RouteID b.RouteID

instance : IsTrans routeMeta metaLE where
  trans a b c h₁ h₂ := strLe_trans (a := a.RouteID) h₁ h₂

theorem sortStrings_perm_eq {xs ys : List String} (h : xs.Perm ys) :
    sortStrings xs = sortStrings ys := by
  unfold sortStrings
  apply List.eq_of_perm_of_sorted (r := strLe)
  · exact ((List.perm_insertionSort strLe xs).trans h).trans
      (List.perm_insertionSort strLe ys).symm
  · exact List.sorted_insertionSort strLe xs
  · exact List.sorted_insertionSort strLe ys

theorem sorted_perm_eq_by_key :
    ∀ (l₁ l₂ : List routeMeta), l₁.Perm l₂ → l₁.Sorted metaLE → l₂.Sorted metaLE →
      (l₁.map routeMeta.RouteID).Nodup → l₁ = l₂ := by
  intro l₁
  induction l₁ with
  | nil =>
    intro l₂ hp _ _ _
    exact hp.nil_eq
  | cons a t₁ ih =>
    intro l₂ hp hs₁ hs₂ hnd
    cases l₂ with
    | nil => exact absurd hp.symm (by simp [List.Perm.nil_eq, List.perm_nil])
    | cons b t₂ =>
      have hnd' : a.RouteID ∉ t₁.map routeMeta.RouteID ∧ (t₁.map routeMeta.RouteID).Nodup :=
        List.nodup_cons.mp (by simpa using hnd)
      have hab : a = b := by
        by_contra hne
        have ha2 : a ∈ b :: t₂ := hp.mem_iff.mp (List.mem_cons_self a t₁)
        have hb1 : b ∈ a :: t₁ := hp.mem_iff.mpr (List.mem_cons_self b t₂)
        have hat2 : a ∈ t₂ := by
          rcases List.mem_cons.mp ha2 with h | h
          · exact absurd h hne
          · exact h
        have hbt1 : b ∈ t₁ := by
          rcases List.mem_cons.mp hb1 with h | h
          · exact absurd h.symm hne
          · exact h
        have hle_ab : metaLE a b := (List.sorted_cons.mp hs₁).1 b hbt1
        have hle_ba : metaLE b a := (List.sorted_cons.mp hs₂).1 a hat2
        have hkey : a.RouteID = b.RouteID := strEq_of_not_lt hle_ba hle_ab
        have hmem : b.RouteID ∈ t₁.map routeMeta.RouteID :=
          List.mem_map_of_mem routeMeta.RouteID hbt1
        rw [← hkey] at hmem
        exact hnd'.1 hmem
      subst hab
      have hp' : t₁.Perm t₂ := (List.perm_cons a).mp hp
      rw [ih t₂ hp' (List.sorted_cons.mp hs₁).2 (List.sorted_cons.mp hs₂).2 hnd'.2]

theorem metas_sort_perm_eq (m₁ m₂ : List routeMeta) (h : m₁.Perm m₂)
    (hnd : (m₁.map routeMeta.RouteID).Nodup) :
    List.insertionSort metaLE m₁ = List.insertionSort metaLE m₂ := by
  apply sorted_perm_eq_by_key
  · exact ((List.perm_insertionSort metaLE m₁).trans h).trans
      (List.perm_insertionSort metaLE m₂).symm
  · exact List.sorted_insertionSort metaLE m₁
  · exact List.sorted_insertionSort metaLE m₂
  · exact (((List.perm_insertionSort metaLE m₁).map routeMeta.RouteID).nodup_iff).mpr hnd

theorem assocFind_perm {α β : Type} [DecidableEq α] :
    ∀ {l₁ l₂ : List (α × β)}, l₁.Perm l₂ → (l₁.map Prod.fst).Nodup →
      ∀ k, Router.assocFind l₁ k = Router.assocFind l₂ k := by
  intro l₁ l₂ hp
  induction hp with
  | nil => intro _ _; rfl
  | cons x h ih =>
    intro hnd k
    obtain ⟨a, b⟩ := x
    have hnd' := (List.nodup_cons.mp hnd).2
    simp only [Router.assocFind]
    by_cases hak : a = k
    · rw [if_pos hak, if_pos hak]
    · rw [if_neg hak, if_neg hak, ih hnd' k]
  | swap x y l =>
    intro hnd k
    obtain ⟨a, b⟩ := x
    obtain ⟨c, d⟩ := y
    have hca : ¬ c = a := by
      have hccons := (List.nodup_cons.mp hnd).1
      intro he
      exact hccons (by rw [he]; exact List.mem_cons_self a _)
    simp only [Router.assocFind]
    by_cases hck : c = k
    · rw [if_pos hck, if_neg (fun hak => hca (hck.trans hak.symm)), if_pos hck]
    · rw [if_neg hck]
      by_cases hak : a = k
      · rw [if_pos hak, if_pos hak]
      · rw [if_neg hak, if_neg hak, if_neg hck]
  | trans h₁ h₂ ih₁ ih₂ =>
    intro hnd k
    rw [ih₁ hnd k, ih₂ (((h₁.map Prod.fst).nodup_iff).mp hnd) k]

theorem layoutChain_congr {L₁ L₂ : List (String × templateDef)} (hp : L₁.Perm L₂)
    (hnd : (L₁.map Prod.fst).Nodup) (routeID : String) :
    layoutChain routeID L₁ = layoutChain routeID L₂ := by
  have hfun : (fun candidate => Router.assocFind L₁ candidate) =
      (fun candidate => Router.assocFind L₂ candidate) :=
    funext (fun c => assocFind_perm hp hnd c)
  simp only [layoutChain]
  rw [hfun]

theorem registryModuleImports_congr (paths : generationPaths) (metas : List routeMeta)
    {L₁ L₂ : List (String × templateDef)} (hp : L₁.Perm L₂)
    (hnd : (L₁.map Prod.fst).Nodup) :
    registryModuleImports paths metas L₁ = registryModuleImports paths metas L₂ := by
  have hfun : (fun routeID => (Router.assocFind L₁ routeID).map (fun layout =>
      layout.ModuleName ++ "\x20\"blog/" ++ paths.GenImportRoot ++ "/" ++
        layout.ModuleName ++ "\"")) =
      (fun routeID => (Router.assocFind L₂ routeID).map (fun layout =>
      layout.ModuleName ++ "\x20\"blog/" ++ paths.GenImportRoot ++ "/" ++
        layout.ModuleName ++ "\"")) :=
    funext (fun c => by rw [assocFind_perm hp hnd c])
  simp only [registryModuleImports]
  rw [sortStrings_perm_eq (hp.map Prod.fst), hfun]

theorem writePageModule_congr (meta : routeMeta)
    {L₁ L₂ : List (String × templateDef)} (hp : L₁.Perm L₂)
    (hnd : (L₁.map Prod.fst).Nodup) :
    writePageModule meta L₁ = writePageModule meta L₂ := by
  simp only [writePageModule]
  rw [layoutChain_congr hp hnd meta.RouteID]

theorem collectLayoutWrappers_go_congr {L₁ L₂ : List (String × templateDef)}
    (hp : L₁.Perm L₂) (hnd : (L₁.map Prod.fst).Nodup) :
    ∀ (ms : List routeMeta) (w : List (String × layoutWrapperDef)),
      collectLayoutWrappers.go L₁ ms w = collectLayoutWrappers.go L₂ ms w := by
  intro ms
  induction ms with
  | nil => intro w; rfl
  | cons meta rest ih =>
    intro w
    simp only [collectLayoutWrappers.go]
    rw [layoutChain_congr hp hnd meta.RouteID]
    cases h : addWrappers meta (layoutChain meta.RouteID L₂) w with
    | error e => simp only [h]
    | ok w' => simp only [h]; exact ih w'

theorem collectLayoutWrappers_congr {L₁ L₂ : List (String × templateDef)}
    (hp : L₁.Perm L₂) (hnd : (L₁.map Prod.fst).Nodup) (metas : List routeMeta) :
    collectLayoutWrappers metas L₁ = collectLayoutWrappers metas L₂ := by
  simp only [collectLayoutWrappers]
  exact collectLayoutWrappers_go_congr hp hnd metas []

theorem generateRegistrySource_layouts_perm (gofmt : String → Except String String)
    (paths : generationPaths) (metas : List routeMeta)
    {L₁ L₂ : List (String × templateDef)} (hp : L₁.Perm L₂)
    (hnd : (L₁.map Prod.fst).Nodup) :
    generateRegistrySource gofmt paths metas L₁ =
      generateRegistrySource gofmt paths metas L₂ := by
  have hblocks : (fun meta =>
      (if meta.HasLive then
        "\t\tframework.PageAndLiveRouteHandler[*appcore.Context, " ++ meta.ParamsTypeName ++
          ", " ++ meta.ResolverAlias ++ ".PageView, " ++ meta.ResolverAlias ++
          ".LiveState]\x7b\n"
      else
        "\t\tframework.PageOnlyRouteHandler[*appcore.Context, " ++ meta.ParamsTypeName ++
          ", " ++ meta.ResolverAlias ++ ".PageView]\x7b\n") ++
      writePageModule meta L₁ ++
      (if meta.HasLive then writeLiveModule meta else "") ++
      "\t\t\x7d,\n") = (fun meta =>
      (if meta.HasLive then
        "\t\tframework.PageAndLiveRouteHandler[*appcore.Context, " ++ meta.ParamsTypeName ++
          ", " ++ meta.ResolverAlias ++ ".PageView, " ++ meta.ResolverAlias ++
          ".LiveState]\x7b\n"
      else
        "\t\tframework.PageOnlyRouteHandler[*appcore.Context, " ++ meta.ParamsTypeName ++
          ", " ++ meta.ResolverAlias ++ ".PageView]\x7b\n") ++
      writePageModule meta L₂ ++
      (if meta.HasLive then writeLiveModule meta else "") ++
      "\t\t\x7d,\n") :=
    funext (fun meta => by rw [writePageModule_congr meta hp hnd])
  simp only [generateRegistrySource]
  rw [registryModuleImports_congr paths metas hp hnd, hblocks,
    collectLayoutWrappers_congr hp hnd metas]

end Gen

/-- A minimal page template fixture for the generator-determinism witness. -/
def c8page (rid : String) : Gen.templateDef :=
  ⟨.page, rid, "", [], "m" ++ rid, "", "", ""⟩

/-- A minimal layout template fixture for the generator-determinism witness. -/
def c8lay (rid : String) : Gen.templateDef :=
  ⟨.layout, rid, "", [], "l" ++ rid, "", "", ""⟩

/-- Route meta fixture for route id "a". -/
def c8metaA : Gen.routeMeta :=
  ⟨"a", [], "A", "AParams", [], c8page "a", "", "", "ra", "", "", false, ""⟩

/-- Route meta fixture for route id "b". -/
def c8metaB : Gen.routeMeta :=
  ⟨"b", [], "B", "BParams", [], c8page "b", "", "", "rb", "", "", false, ""⟩

/-- Generation paths fixture. -/
def c8paths : Gen.generationPaths := ⟨"", "", "gen", "", ""⟩

/-- A concrete formatter standing in for go/format: the identity. -/
def c8fmt : String → Except String String := fun s => .ok s

/-- C8: the source generators are deterministic functions of the
route-meta set and the layout map rather than of any iteration order:
sorting any permutation of the same metas (with distinct route ids, as
buildRouteMetas produces and sorts them) yields the same list, so the
contracts, registry and resolver-adapter generators emit byte-identical
output, and the registry generator - the only one consuming the layouts
map - emits identical output on any two insertion orders of the same
layout map, for every formatter. -/
theorem c8_generation_deterministic
    (gofmt : String → Except String String) (paths : Gen.generationPaths)
    (m₁ m₂ : List Gen.routeMeta) (hm : m₁.Perm m₂)
    (hmnd : (m₁.map Gen.routeMeta.RouteID).Nodup)
    (L₁ L₂ : List (String × Gen.templateDef)) (hl : L₁.Perm L₂)
    (hlnd : (L₁.map Prod.fst).Nodup) :
    List.insertionSort Gen.metaLE m₁ = List.insertionSort Gen.metaLE m₂ ∧
    Gen.generateContractsSource gofmt (List.insertionSort Gen.metaLE m₁) =
      Gen.generateContractsSource gofmt (List.insertionSort Gen.metaLE m₂) ∧
    Gen.generateRegistrySource gofmt paths (List.insertionSort Gen.metaLE m₁) L₁ =
      Gen.generateRegistrySource gofmt paths (List.insertionSort Gen.metaLE m₂) L₂ ∧
    Gen.generateResolversSource gofmt (List.insertionSort Gen.metaLE m₁) =
      Gen.generateResolversSource gofmt (List.insertionSort Gen.metaLE m₂) := by
  have hs := Gen.metas_sort_perm_eq m₁ m₂ hm hmnd
  refine ⟨hs, by rw [hs], ?_, by rw [hs]⟩
  rw [hs]
  exact Gen.generateRegistrySource_layouts_perm gofmt paths _ hl hlnd

/-- Witness for C8 on two metas and a two-entry layout map, both given in
two different orders. -/
theorem c8_generation_deterministic_witness :
    ([c8metaA, c8metaB] : List Gen.routeMeta).Perm [c8metaB, c8metaA] ∧
    (([c8metaA, c8metaB] : List Gen.routeMeta).map Gen.routeMeta.RouteID).Nodup ∧
    ([("", c8lay ""), ("a", c8lay "a")] : List (String × Gen.templateDef)).Perm
      [("a", c8lay "a"), ("", c8lay "")] ∧
    (([("", c8lay ""), ("a", c8lay "a")] : List (String × Gen.templateDef)).map
      Prod.fst).Nodup ∧
    (List.insertionSort Gen.metaLE [c8metaA, c8metaB] =
      List.insertionSort Gen.metaLE [c8metaB, c8metaA] ∧
     Gen.generateContractsSource c8fmt (List.insertionSort Gen.metaLE [c8metaA, c8metaB]) =
       Gen.generateContractsSource c8fmt (List.insertionSort Gen.metaLE [c8metaB, c8metaA]) ∧
     Gen.generateRegistrySource c8fmt c8paths
         (List.insertionSort Gen.metaLE [c8metaA, c8metaB])
         [("", c8lay ""), ("a", c8lay "a")] =
       Gen.generateRegistrySource c8fmt c8paths
         (List.insertionSort Gen.metaLE [c8metaB, c8metaA])
         [("a", c8lay "a"), ("", c8lay "")] ∧
     Gen.generateResolversSource c8fmt (List.insertionSort Gen.metaLE [c8metaA, c8metaB]) =
       Gen.generateResolversSource c8fmt (List.insertionSort Gen.metaLE [c8metaB, c8metaA])) :=
  ⟨by decide, by decide, by decide, by decide,
   c8_generation_deterministic c8fmt c8paths [c8metaA, c8metaB] [c8metaB, c8metaA]
     (by decide) (by decide) [("", c8lay ""), ("a", c8lay "a")]
     [("a", c8lay "a"), ("", c8lay "")] (by decide) (by decide)⟩
